import Mathlib

/-!
Shallow embedding of the pygame-menu excerpt (pygameMenu/widgets/textinput.py
and pygameMenu/sound.py).

Modelling conventions:
* Python strings are lists of characters (List Char); Python ints are Int.
  Fields that the code only ever keeps non-negative by construction
  (maxchar, maxwidth, max_history) are Nat, matching the constructor's
  ValueError checks.
* Python slice arithmetic (negative indices address from the end, out of
  range indices clamp) is embedded by the normIdx / pyTakeI / pyDropI /
  pySliceI helpers below.
* Host-library calls (pygame surfaces, fonts, clock, pyperclip, the mixer)
  are not part of the program text being verified: the clipboard content,
  the mixer's found channel, the filesystem (os.path.isfile) and the
  key-modifier state are inputs to the embedded functions, and the sound
  effects that the widget plays are returned as an observable trace.
* Code that can raise (list indexing in _update_from_history / _redo)
  returns Option; none models the raised IndexError.
-/

/-- Python slice index normalisation: a negative index counts from the end
of the sequence, and every index is clamped into [0, n]. -/
def normIdx (i : Int) (n : Nat) : Nat :=
  if i < 0 then ((n : Int) + i).toNat else min i.toNat n

/-- Python s[:i] on a list. -/
def pyTakeI (s : List Char) (i : Int) : List Char :=
  s.take (normIdx i s.length)

/-- Python s[i:] on a list. -/
def pyDropI (s : List Char) (i : Int) : List Char :=
  s.drop (normIdx i s.length)

/-- Python s[a:b] on a list. -/
def pySliceI (s : List Char) (a b : Int) : List Char :=
  (s.drop (normIdx a s.length)).take (normIdx b s.length - normIdx a s.length)

/-- Python list.__getitem__ with an Int index: negative indices address
from the end, and an out-of-range index raises (modelled as none). -/
def pyGet {α : Type} (l : List α) (i : Int) : Option α :=
  if 0 ≤ i then l.get? i.toNat
  else if 0 ≤ (l.length : Int) + i then l.get? ((l.length : Int) + i).toNat
  else none

/-- Python list.insert with an Int index (clamps at both ends). -/
def pyInsertI {α : Type} (i : Int) (x : α) (l : List α) : List α :=
  let j := if i < 0 then ((l.length : Int) + i).toNat else i.toNat
  l.take j ++ x :: l.drop j

/-- Characters removed by Python str.strip() with no argument (ASCII
whitespace; the exotic unicode space classes never arise here). -/
def pyIsSpace (c : Char) : Bool :=
  c = ' ' ∨ c = '\t' ∨ c = '\n' ∨ c = '\r' ∨ c.toNat = 11 ∨ c.toNat = 12

/-- Python str.strip() with no argument. -/
def pyStrip (s : List Char) : List Char :=
  ((s.dropWhile pyIsSpace).reverse.dropWhile pyIsSpace).reverse

/-- ASCII decimal digit. -/
def isDigitChar (c : Char) : Bool :=
  '0' ≤ c ∧ c ≤ '9'

/-- Acceptance of Python int(string): surrounding whitespace, an optional
sign, then a non-empty run of digits.  (Underscore digit grouping is not
modelled; no input in this development uses it.) -/
def pyIntParses (s : List Char) : Bool :=
  let t := pyStrip s
  let t := match t with
    | c :: r => if c = '+' ∨ c = '-' then r else c :: r
    | [] => []
  ¬t.isEmpty ∧ t.all isDigitChar

/-- Numeric value of Python int(string), meaningful when pyIntParses. -/
def pyIntValue (s : List Char) : Int :=
  let t := pyStrip s
  let (sign, d) := match t with
    | c :: r => if c = '-' then ((-1 : Int), r) else if c = '+' then (1, r) else (1, c :: r)
    | [] => (1, [])
  sign * (d.foldl (fun acc c => acc * 10 + ((c.toNat : Int) - 48)) 0)

/-- Exponent part of a Python float literal: empty, or e/E, an optional
sign and a non-empty run of digits. -/
def pyFloatExpOK (t : List Char) : Bool :=
  match t with
  | [] => true
  | c :: r =>
    if c = 'e' ∨ c = 'E' then
      let r := match r with
        | d :: r2 => if d = '+' ∨ d = '-' then r2 else d :: r2
        | [] => []
      ¬r.isEmpty ∧ r.all isDigitChar
    else false

/-- Acceptance of Python float(string): whitespace, optional sign, then a
mantissa (digits, digits.digits, digits., or .digits) and an optional
exponent.  (The inf/infinity/nan forms and underscore grouping are not
modelled; no input in this development uses them.) -/
def pyFloatParses (s : List Char) : Bool :=
  let t := pyStrip s
  let t := match t with
    | c :: r => if c = '+' ∨ c = '-' then r else c :: r
    | [] => []
  let d1 := t.takeWhile isDigitChar
  let r1 := t.dropWhile isDigitChar
  match r1 with
  | '.' :: r2 =>
    let d2 := r2.takeWhile isDigitChar
    let r3 := r2.dropWhile isDigitChar
    (¬d1.isEmpty ∨ ¬d2.isEmpty) ∧ pyFloatExpOK r3
  | _ => ¬d1.isEmpty ∧ pyFloatExpOK r1

/-- Input types accepted by the widget (pygameMenu locals constants
PYGAME_INPUT_TEXT / PYGAME_INPUT_FLOAT / PYGAME_INPUT_INT; "other" stands
for any further string a caller could pass as input_type). -/
inductive InputType
  | text
  | float
  | int
  | other
deriving DecidableEq, Repr

/-- Sound effects the widget can ask the Sound manager to play; the trace
of played effects is the observable output of the event handlers. -/
inductive Snd
  | keyAdd
  | keyDel
  | eventError
  | openMenu
deriving DecidableEq, Repr

/-- The persistent state of a TextInput widget: the fields of
textinput.py's TextInput class that the edit/cursor/history logic reads or
writes.  Purely visual fields (cursor surface, blink timers, key-repeat
counters) and the font are host-rendering state and are omitted. -/
structure TextInput where
  input_string : List Char
  cursor_position : Int
  rb0 : Int
  rb1 : Int
  rb2 : Int
  history : List (List Char)
  history_cursor : List Int
  history_renderbox : List (Int × Int × Int)
  history_index : Int
  max_history : Nat
  maxchar : Nat
  maxwidth : Nat
  input_type : InputType
  block_copy_paste : Bool
  ellipsis : List Char
deriving DecidableEq, Repr

namespace TextInput

/-- The cell computation of TextInput._update_renderbox: given the update
parameters, maxwidth, the current string length and the current cells
(rb0, rb1, rb2), it returns the new cells.  The sequential Python
assignments are threaded through lets, reading exactly the values the
Python statements read at each point. -/
def renderboxCells (left right : Int) (addition toEnd toStart : Bool)
    (mw ls : Int) (rb0 rb1 rb2 : Int) : Int × Int × Int :=
  if toEnd then (max 0 (ls - mw), ls, min ls mw)
  else if toStart then (0, min ls mw, 0)
  else if left < 0 ∧ ls = 0 then (rb0, rb1, rb2)
  else if ls ≤ mw then
    if right < 0 ∧ rb2 = ls then (rb0, rb1, rb2)
    else
      let b1 := if addition then (if left < 0 then rb1 + left else rb1) + right else rb1
      let b2 := (if addition ∧ right < 0 then rb2 - right else rb2) + left + right
      (max 0 0, max 0 b1, max 0 (min b2 (min mw ls)))
  else
    if addition ∧ right < 0 ∧ rb2 = mw then (rb0, rb1, rb2)
    else if addition ∧ left < 0 ∧ rb2 = 0 then (rb0, rb1, rb2)
    else
      let c2 := if addition ∧ right < 0 ∧ rb0 ≠ 0 ∧ rb1 - 1 = ls then rb2 - right else rb2
      let d0 := if addition ∧ 0 < right ∧ c2 = mw then rb0 + right else rb0
      let d1 := if addition ∧ 0 < right ∧ c2 = mw then rb1 + right else rb1
      let d2 := if addition ∧ 0 < right then c2 + right else c2
      let e2 := if addition ∧ left < 0 ∧ d0 = 0 then d2 + left else d2
      let e0 := if addition ∧ left < 0 then d0 + left else d0
      let e1 := if addition ∧ left < 0 then d1 + left else d1
      let f2 := if ¬addition then e2 + right + left else e2
      let f0 := if ¬addition ∧ f2 < 0 then e0 + left else e0
      let f1 := if ¬addition ∧ f2 < 0 then e1 + left else e1
      let _g0 := if ¬addition ∧ mw < f2 then f0 + right else f0
      let g1 := if ¬addition ∧ mw < f2 then f1 + right else f1
      -- "Apply string limits": the code recomputes renderbox[0] from
      -- renderbox[1] here, so the accumulated rb0 value is dead in this
      -- branch (kept above to mirror the sequence of assignments).
      let h1 := max mw (min g1 ls)
      let h0 := h1 - mw
      (max 0 h0, max 0 h1, max 0 (min f2 (min mw ls)))

/-- TextInput._update_renderbox: apply renderboxCells to the widget state
unless maxwidth is zero (the early return; the _cursor_render flag it also
sets is rendering state, not modelled). -/
def update_renderbox (left right : Int) (addition toEnd toStart : Bool)
    (st : TextInput) : TextInput :=
  if st.maxwidth = 0 then st
  else
    let r := renderboxCells left right addition toEnd toStart
               (st.maxwidth : Int) (st.input_string.length : Int) st.rb0 st.rb1 st.rb2
    { st with rb0 := r.1, rb1 := r.2.1, rb2 := r.2.2 }

/-- TextInput._get_input_string: the rendered text, with the render window
and ellipses applied when the string overflows maxwidth. -/
def get_input_string (st : TextInput) : List Char :=
  if st.maxwidth ≠ 0 ∧ st.maxwidth < st.input_string.length then
    let text := pySliceI st.input_string st.rb0 st.rb1
    let text := if st.rb1 ≠ (st.input_string.length : Int) then text ++ st.ellipsis else text
    if st.rb0 ≠ 0 then st.ellipsis ++ text else text
  else st.input_string

/-- TextInput.clear. -/
def clear (st : TextInput) : TextInput :=
  { st with input_string := [], cursor_position := 0 }

/-- TextInput.set_value: the code assigns the new text and nothing else
(in particular the cursor is left where it was). -/
def set_value (text : List Char) (st : TextInput) : TextInput :=
  { st with input_string := text }

/-- TextInput._check_input_size: true when the input must be limited. -/
def check_input_size (st : TextInput) : Bool :=
  if st.maxchar = 0 then false
  else st.maxchar < st.input_string.length

/-- TextInput._check_input_type.  Note the code pairs PYGAME_INPUT_FLOAT
with the int() conversion and PYGAME_INPUT_INT with float(). -/
def check_input_type (ty : InputType) (s : List Char) : Bool :=
  if s = [] then true
  else if ty = InputType.text then true
  else
    let conv : Option (List Char → Bool) :=
      if ty = InputType.float then some pyIntParses
      else if ty = InputType.int then some pyFloatParses
      else none
    if s = ['-'] then true
    else
      match conv with
      | none => false
      | some f => f s

/-- Result of TextInput.get_value: the stored string for a text input, a
Python int for an int input, and a Python float for a float input (the
float's numeric value is host floating point and is kept abstract as the
string it was parsed from); a failed conversion yields the int 0. -/
inductive PyVal
  | str (s : List Char)
  | int (v : Int)
  | float (src : List Char)
deriving DecidableEq, Repr

/-- TextInput.get_value. -/
def get_value (st : TextInput) : PyVal :=
  match st.input_type with
  | InputType.text => PyVal.str st.input_string
  | InputType.float =>
    if pyFloatParses st.input_string then PyVal.float st.input_string else PyVal.int 0
  | InputType.int =>
    if pyIntParses st.input_string then PyVal.int (pyIntValue st.input_string) else PyVal.int 0
  | InputType.other => PyVal.str []

/-- TextInput._move_cursor_left. -/
def move_cursor_left (st : TextInput) : TextInput :=
  let st1 := { st with cursor_position := max (st.cursor_position - 1) 0 }
  update_renderbox (-1) 0 false false false st1

/-- TextInput._move_cursor_right. -/
def move_cursor_right (st : TextInput) : TextInput :=
  let st1 := { st with cursor_position := min (st.cursor_position + 1) (st.input_string.length : Int) }
  update_renderbox 0 1 false false false st1

/-- The insertion step of TextInput._update_input_string: push the new
edition (string, cursor, renderbox) into the three history lists at
history_index, drop the oldest edition when the history exceeds
max_history, and point history_index past the last stored edition. -/
def history_insert (st : TextInput) (new_string : List Char) : TextInput :=
  let h1 := pyInsertI st.history_index new_string st.history
  let h2 := pyInsertI st.history_index st.cursor_position st.history_cursor
  let h3 := pyInsertI st.history_index (st.rb0, st.rb1, st.rb2) st.history_renderbox
  if st.max_history < h1.length then
    { st with history := h1.drop 1, history_cursor := h2.drop 1,
              history_renderbox := h3.drop 1,
              history_index := ((h1.drop 1).length : Int) }
  else
    { st with history := h1, history_cursor := h2, history_renderbox := h3,
              history_index := (h1.length : Int) }

/-- TextInput._update_input_string, with explicit recursion fuel.  The
code recurses at most once: the recursive call is made only after setting
history_index := len(history), so inside it the index-sync branch is
skipped.  Fuel 2 therefore suffices and the fuel-0 base case (which just
assigns the string) is unreachable from update_input_string below. -/
def update_input_stringF : Nat → TextInput → List Char → TextInput
  | 0, st, new_string => { st with input_string := new_string }
  | fuel + 1, st, new_string =>
    let l := st.history.length
    if ((0 < l ∧ pyGet st.history ((l : Int) - 1) ≠ some new_string) ∨ l = 0) ∧
        0 < st.max_history then
      let st1 :=
        if st.history_index ≠ (l : Int) then
          -- the current status is not the last: store it as a new edition
          let last_string := (pyGet st.history st.history_index).getD []
          let st' := { st with history_index := (st.history.length : Int) }
          update_input_stringF fuel st' last_string
        else st
      let st2 := history_insert st1 new_string
      { st2 with input_string := new_string }
    else { st with input_string := new_string }

/-- TextInput._update_input_string. -/
def update_input_string (st : TextInput) (new_string : List Char) : TextInput :=
  update_input_stringF 2 st new_string

/-- TextInput._update_from_history.  Reads the three history lists at
history_index; an out-of-range index raises IndexError (none). -/
def update_from_history (st : TextInput) : Option TextInput :=
  match pyGet st.history st.history_index,
        pyGet st.history_renderbox st.history_index,
        pyGet st.history_cursor st.history_index with
  | some s, some rb, some c =>
    some { st with input_string := s, rb0 := rb.1, rb1 := rb.2.1, rb2 := rb.2.2,
                   cursor_position := c }
  | _, _, _ => none

/-- TextInput._undo.  Returns the rewound widget and the method's Bool
result; none models a raised IndexError. -/
def undo (st : TextInput) : Option (TextInput × Bool) :=
  if st.history_index = 0 then some (st, false)
  else
    let i1 := if st.history_index = (st.history.length : Int)
              then st.history_index - 1 else st.history_index
    let st1 := { st with history_index := max 0 (i1 - 1) }
    (update_from_history st1).map (fun st2 => (st2, true))

/-- TextInput._redo.  With an empty history the guard compares against
len(history) - 1 = -1, the index moves to -1 and the history read raises
IndexError (none). -/
def redo (st : TextInput) : Option (TextInput × Bool) :=
  if st.history_index = (st.history.length : Int) - 1 then some (st, false)
  else
    let i1 := min ((st.history.length : Int) - 1) (st.history_index + 1)
    let st1 := { st with history_index := i1 }
    (update_from_history st1).map (fun st2 => (st2, true))

/-- TextInput._copy (the pyperclip side effect is host I O and carries no
widget state). -/
def copyOp (st : TextInput) : TextInput × Bool :=
  if st.block_copy_paste then (st, false)
  else ({ st with block_copy_paste := true }, true)

/-- TextInput._cut. -/
def cut (st : TextInput) : TextInput :=
  let st1 := (copyOp st).1
  let st2 := { st1 with cursor_position := 0, rb0 := 0, rb1 := 0, rb2 := 0 }
  update_input_string st2 []

/-- The clipboard post-processing in TextInput._paste: strip, remove the
two newline characters, then text.translate(escapes).  In Python 3 the
31-character escapes string acts as a translation table indexed by code
point, so characters with code point at most 30 are shifted up by one and
every other character is left unchanged (an IndexError in the table lookup
leaves the character untouched). -/
def processClipboard (s : List Char) : List Char :=
  let t := pyStrip s
  let t := t.filter (fun c => c ≠ '\n' ∧ c ≠ '\r')
  t.map (fun c => if c.toNat ≤ 30 then Char.ofNat (c.toNat + 1) else c)

/-- Iterated TextInput._move_cursor_right, as in the paste cursor loop. -/
def iterMoveRight : Nat → TextInput → TextInput
  | 0, st => st
  | n + 1, st => iterMoveRight n (move_cursor_right st)

/-- TextInput._paste.  The clipboard content is a host input; the result
carries the method's Bool value and the trace of played sounds. -/
def paste (clip : List Char) (st : TextInput) : TextInput × Bool × List Snd :=
  if st.block_copy_paste then (st, false, [])
  else
    let text := processClipboard clip
    if text = [] then (st, false, [])
    else
      let tlen : Int := text.length
      let tend : Int :=
        if st.maxchar ≠ 0 then min ((st.maxchar : Int) - st.input_string.length + 1) tlen
        else tlen
      if st.maxchar ≠ 0 ∧ tend ≤ 0 then (st, false, [Snd.eventError])
      else
        let new_string := pyTakeI st.input_string st.cursor_position ++
                          pyTakeI text tend ++
                          pyDropI st.input_string st.cursor_position
        if check_input_type st.input_type new_string then
          let st1 := { st with input_string := new_string }
          let st2 := iterMoveRight (text.length + 1) st1
          let st3 := update_input_string st2 new_string
          ({ st3 with block_copy_paste := true }, true, [Snd.keyAdd])
        else (st, false, [Snd.eventError])

/-- The K_BACKSPACE branch of TextInput.update: delete before the cursor.
The history and renderbox updates run before the cursor is decremented,
exactly as in the code. -/
def doBackspace (st : TextInput) : TextInput :=
  let new_string := pyTakeI st.input_string (max (st.cursor_position - 1) 0) ++
                    pyDropI st.input_string st.cursor_position
  let st1 := update_input_string st new_string
  let st2 := update_renderbox (-1) 0 true false false st1
  { st2 with cursor_position := max (st2.cursor_position - 1) 0 }

/-- The K_DELETE branch of TextInput.update: delete at the cursor. -/
def doDelete (st : TextInput) : TextInput :=
  let new_string := pyTakeI st.input_string st.cursor_position ++
                    pyDropI st.input_string (st.cursor_position + 1)
  let st1 := update_input_string st new_string
  update_renderbox 0 (-1) true false false st1

/-- The K_END branch of TextInput.update. -/
def doEnd (st : TextInput) : TextInput :=
  let st1 := { st with cursor_position := (st.input_string.length : Int) }
  update_renderbox 0 0 false true false st1

/-- The K_HOME branch of TextInput.update. -/
def doHome (st : TextInput) : TextInput :=
  let st1 := { st with cursor_position := 0 }
  update_renderbox 0 0 false false true st1

/-- The character-insertion branch of TextInput.update (after the size,
escape-sequence and input-type checks have passed and event.unicode is
non-empty): cursor up by one, insert the unicode at the cursor, then the
renderbox and history updates. -/
def doAddChar (u : List Char) (st : TextInput) : TextInput :=
  let new_string := pyTakeI st.input_string st.cursor_position ++ u ++
                    pyDropI st.input_string st.cursor_position
  let st1 := { st with cursor_position := st.cursor_position + 1,
                       input_string := new_string }
  let st2 := update_renderbox 0 1 true false false st1
  update_input_string st2 new_string

/-- The editing and cursor operations of TextInput.update that run
through _update_renderbox. -/
inductive EditOp
  | addChar (u : List Char)
  | backspace
  | delete
  | moveLeft
  | moveRight
  | home
  | toEnd
deriving DecidableEq, Repr

/-- Dispatch an EditOp on the widget state. -/
def applyEditOp : EditOp → TextInput → TextInput
  | EditOp.addChar u, st => doAddChar u st
  | EditOp.backspace, st => doBackspace st
  | EditOp.delete, st => doDelete st
  | EditOp.moveLeft, st => move_cursor_left st
  | EditOp.moveRight, st => move_cursor_right st
  | EditOp.home, st => doHome st
  | EditOp.toEnd, st => doEnd st

/-- Keys distinguished by TextInput.update.  char covers printable keys;
ignored covers the keys of self._ignore_keys (arrows up/down, modifiers,
tab, return handled as MENU_CTRL_ENTER is listed separately, escape). -/
inductive Key
  | backspace
  | delete
  | left
  | right
  | home
  | endKey
  | enter
  | char (c : Char)
  | ignored
deriving DecidableEq, Repr

/-- A pygame event as seen by TextInput.update.  For a keydown, unicode is
event.unicode, ctrl tells whether pygame reports KMOD_CTRL held, valid is
the result of the inherited Widget.check_key_pressed_valid (host state,
not part of this excerpt), and escBad tells whether repr(event.unicode)
contains a backslash-x or backslash-r escape (a host string property). -/
inductive PEvent
  | keydown (key : Key) (unicode : List Char) (ctrl : Bool) (valid : Bool) (escBad : Bool)
  | keyup
deriving DecidableEq, Repr

/-- The event loop of TextInput.update, threading the accumulated updated
flag and sound trace.  The Ctrl branches and the escape-sequence branch
return from update immediately, the size-limit branch breaks out of the
loop, and a raised IndexError in undo/redo aborts the call (none).
Python returns None from the Ctrl+X branch; None is falsy and is modelled
as false.  The post-loop mouse/key-repeat/blink code touches only timing
and rendering state and cannot change the returned flag. -/
def updateLoop (clip : List Char) :
    List PEvent → TextInput → Bool → List Snd → Option (TextInput × Bool × List Snd)
  | [], st, updated, snds => some (st, updated, snds)
  | PEvent.keyup :: rest, st, updated, snds =>
    updateLoop clip rest { st with block_copy_paste := false } updated snds
  | PEvent.keydown k u ctrl valid escBad :: rest, st, updated, snds =>
    if valid = false then updateLoop clip rest st updated snds
    else if ctrl then
      if k = Key.char 'c' then
        let r := copyOp st
        some (r.1, r.2, snds)
      else if k = Key.char 'v' then
        let r := paste clip st
        some (r.1, r.2.1, snds ++ r.2.2)
      else if k = Key.char 'z' then
        (undo st).map (fun r => (r.1, r.2, snds ++ [Snd.keyDel]))
      else if k = Key.char 'y' then
        (redo st).map (fun r => (r.1, r.2, snds ++ [Snd.keyAdd]))
      else if k = Key.char 'x' then
        some (cut st, false, snds ++ [Snd.keyDel])
      else some (st, false, snds)
    else
      match k with
      | Key.backspace =>
        let snd := if st.cursor_position = 0 then Snd.eventError else Snd.keyDel
        updateLoop clip rest (doBackspace st) true (snds ++ [snd])
      | Key.delete =>
        let snd := if st.cursor_position = (st.input_string.length : Int)
                   then Snd.eventError else Snd.keyDel
        updateLoop clip rest (doDelete st) true (snds ++ [snd])
      | Key.right =>
        let snd := if st.cursor_position = (st.input_string.length : Int)
                   then Snd.eventError else Snd.keyAdd
        updateLoop clip rest (move_cursor_right st) true (snds ++ [snd])
      | Key.left =>
        let snd := if st.cursor_position = 0 then Snd.eventError else Snd.keyAdd
        updateLoop clip rest (move_cursor_left st) true (snds ++ [snd])
      | Key.endKey =>
        updateLoop clip rest (doEnd st) true (snds ++ [Snd.keyAdd])
      | Key.home =>
        updateLoop clip rest (doHome st) true (snds ++ [Snd.keyAdd])
      | Key.enter =>
        -- MENU_CTRL_ENTER: self.apply() fires the user callback (host)
        updateLoop clip rest st true (snds ++ [Snd.openMenu])
      | Key.ignored =>
        updateLoop clip rest st updated snds
      | Key.char _ =>
        if check_input_size st then
          -- sound error, then break out of the event loop
          some (st, updated, snds ++ [Snd.eventError])
        else if escBad then some (st, false, snds)
        else
          let new_string := pyTakeI st.input_string st.cursor_position ++ u ++
                            pyDropI st.input_string st.cursor_position
          if check_input_type st.input_type new_string then
            if 0 < u.length then
              updateLoop clip rest (doAddChar u st) true (snds ++ [Snd.keyAdd])
            else updateLoop clip rest st updated snds
          else updateLoop clip rest st updated (snds ++ [Snd.eventError])

/-- TextInput.update on a list of events (mouse events are excluded from
the embedding: their effect on the cursor depends on host font geometry). -/
def update (clip : List Char) (events : List PEvent) (st : TextInput) :
    Option (TextInput × Bool × List Snd) :=
  updateLoop clip events st false []

end TextInput

/-- Identifiers for mixer channels (pygame.mixer.Channel objects are host
handles; only identity matters to get_channel). -/
abbrev Channel := Nat

/-- A stored sound entry of Sound._sound: empty (disabled) or the loaded
configuration.  The pygame Sound object and its length are host data and
are represented by the file path they were loaded from. -/
inductive SEntry
  | empty
  | loaded (path : String) (volume : Rat) (loops : Int) (maxtime : Rat) (fade_ms : Rat)
deriving DecidableEq, Repr

/-- Exceptions Sound.set_sound can raise. -/
inductive PyErr
  | assertErr
  | valueErr
  | fileNotFoundErr
deriving DecidableEq, Repr

/-- The eight predefined sound type constants of sound.py. -/
def type_sounds : List String :=
  ["__pygameMenu_sound_click_mouse__",
   "__pygameMenu_sound_close_menu__",
   "__pygameMenu_sound_error__",
   "__pygameMenu_sound_event__",
   "__pygameMenu_sound_event_error__",
   "__pygameMenu_sound_key_addition__",
   "__pygameMenu_sound_key_deletion__",
   "__pygameMenu_sound_open_menu__"]

/-- The state of a Sound object: the unique-channel flag fixed at
construction, the stored channel, and the sound dictionary keyed by the
eight type constants. -/
structure Sound where
  uniquechannel : Bool
  channel : Option Channel
  sounds : List (String × SEntry)
deriving DecidableEq, Repr

namespace Sound

/-- A fresh Sound object's dictionary: every type maps to an empty entry. -/
def initSounds : List (String × SEntry) :=
  type_sounds.map (fun t => (t, SEntry.empty))

/-- Python dict assignment d[k] = v on the association-list model. -/
def dictSet (k : String) (v : SEntry) : List (String × SEntry) → List (String × SEntry)
  | [] => [(k, v)]
  | (k', v') :: r => if k' = k then (k, v) :: r else (k', v') :: dictSet k v r

/-- Python dict lookup d[k] on the association-list model. -/
def dictGet (k : String) : List (String × SEntry) → Option SEntry
  | [] => none
  | (k', v') :: r => if k' = k then some v' else dictGet k r

/-- Sound.get_channel.  found is what mixer.find_channel() returns on this
call (host mixer state). -/
def get_channel (found : Option Channel) (s : Sound) : Option Channel × Sound :=
  if s.uniquechannel then
    match s.channel with
    | none => (found, { s with channel := found })
    | some c => (some c, s)
  else (found, { s with channel := found })

/-- Iterated Sound.get_channel over a sequence of mixer answers, returning
the sequence of results. -/
def get_channel_seq : List (Option Channel) → Sound → List (Option Channel) × Sound
  | [], s => ([], s)
  | f :: fs, s =>
    let r := get_channel f s
    let rest := get_channel_seq fs r.2
    (r.1 :: rest.1, rest.2)

/-- Sound.set_sound.  isfile is the host filesystem predicate
(os.path.isfile) and loadOk tells whether mixer.Sound accepts the file
(a pygame.error on loading disables the entry).  The isinstance assertions
are enforced by the Lean types; the value assertions on loops, maxtime,
fade_ms and volume run, in that order, before everything else and raise
AssertionError when violated. -/
def set_sound (isfile : String → Bool) (loadOk : Bool) (sound : String)
    (file : Option String) (volume : Rat) (loops : Int) (maxtime fade_ms : Rat)
    (s : Sound) : Except PyErr Sound :=
  if ¬(0 ≤ loops) then Except.error PyErr.assertErr
  else if ¬(0 ≤ maxtime) then Except.error PyErr.assertErr
  else if ¬(0 ≤ fade_ms) then Except.error PyErr.assertErr
  else if ¬(0 ≤ volume ∧ volume ≤ 1) then Except.error PyErr.assertErr
  else if sound ∉ type_sounds then Except.error PyErr.valueErr
  else
    match file with
    | none => Except.ok { s with sounds := dictSet sound SEntry.empty s.sounds }
    | some f =>
      if ¬isfile f then Except.error PyErr.fileNotFoundErr
      else if ¬loadOk then
        Except.ok { s with sounds := dictSet sound SEntry.empty s.sounds }
      else
        let entry := SEntry.loaded f volume loops maxtime fade_ms
        Except.ok { s with sounds := dictSet sound entry s.sounds }

end Sound

/-! ### Basic facts about the Python slice helpers -/

theorem normIdx_le (i : Int) (n : Nat) : normIdx i n ≤ n := by
  unfold normIdx
  split_ifs <;> omega

theorem normIdx_of_mem (i : Int) (n : Nat) (h0 : 0 ≤ i) (h : i ≤ (n : Int)) :
    normIdx i n = i.toNat := by
  unfold normIdx
  split_ifs <;> omega

@[simp] theorem pyTakeI_length (s : List Char) (i : Int) :
    (pyTakeI s i).length = normIdx i s.length := by
  simp [pyTakeI, List.length_take]
  exact normIdx_le i s.length

@[simp] theorem pyDropI_length (s : List Char) (i : Int) :
    (pyDropI s i).length = s.length - normIdx i s.length := by
  simp [pyDropI, List.length_drop]

theorem pyTakeI_of_mem (s : List Char) (i : Int) (h0 : 0 ≤ i) (h : i ≤ (s.length : Int)) :
    pyTakeI s i = s.take i.toNat := by
  simp [pyTakeI, normIdx_of_mem i s.length h0 h]

theorem pyDropI_of_mem (s : List Char) (i : Int) (h0 : 0 ≤ i) (h : i ≤ (s.length : Int)) :
    pyDropI s i = s.drop i.toNat := by
  simp [pyDropI, normIdx_of_mem i s.length h0 h]

theorem pyGet_of_nonneg {α : Type} (l : List α) (i : Int) (h0 : 0 ≤ i) :
    pyGet l i = l.get? i.toNat := by
  simp [pyGet, h0]

namespace TextInput

/-! ### Frame lemmas: which fields each operation leaves unchanged -/

theorem update_renderbox_frame (left right : Int) (addition toEnd toStart : Bool)
    (st : TextInput) :
    (update_renderbox left right addition toEnd toStart st).input_string = st.input_string ∧
    (update_renderbox left right addition toEnd toStart st).cursor_position = st.cursor_position ∧
    (update_renderbox left right addition toEnd toStart st).history = st.history ∧
    (update_renderbox left right addition toEnd toStart st).history_cursor = st.history_cursor ∧
    (update_renderbox left right addition toEnd toStart st).history_renderbox = st.history_renderbox ∧
    (update_renderbox left right addition toEnd toStart st).history_index = st.history_index ∧
    (update_renderbox left right addition toEnd toStart st).max_history = st.max_history ∧
    (update_renderbox left right addition toEnd toStart st).maxchar = st.maxchar ∧
    (update_renderbox left right addition toEnd toStart st).maxwidth = st.maxwidth ∧
    (update_renderbox left right addition toEnd toStart st).input_type = st.input_type ∧
    (update_renderbox left right addition toEnd toStart st).block_copy_paste = st.block_copy_paste ∧
    (update_renderbox left right addition toEnd toStart st).ellipsis = st.ellipsis := by
  unfold update_renderbox
  split_ifs <;> exact ⟨rfl, rfl, rfl, rfl, rfl, rfl, rfl, rfl, rfl, rfl, rfl, rfl⟩

theorem history_insert_frame (st : TextInput) (ns : List Char) :
    (history_insert st ns).input_string = st.input_string ∧
    (history_insert st ns).cursor_position = st.cursor_position ∧
    (history_insert st ns).rb0 = st.rb0 ∧
    (history_insert st ns).rb1 = st.rb1 ∧
    (history_insert st ns).rb2 = st.rb2 ∧
    (history_insert st ns).max_history = st.max_history ∧
    (history_insert st ns).maxchar = st.maxchar ∧
    (history_insert st ns).maxwidth = st.maxwidth ∧
    (history_insert st ns).input_type = st.input_type ∧
    (history_insert st ns).block_copy_paste = st.block_copy_paste ∧
    (history_insert st ns).ellipsis = st.ellipsis := by
  unfold history_insert
  dsimp only
  split_ifs <;> exact ⟨rfl, rfl, rfl, rfl, rfl, rfl, rfl, rfl, rfl, rfl, rfl⟩

theorem uisF_frame (fuel : Nat) (st : TextInput) (ns : List Char) :
    (update_input_stringF fuel st ns).input_string = ns ∧
    (update_input_stringF fuel st ns).cursor_position = st.cursor_position ∧
    (update_input_stringF fuel st ns).rb0 = st.rb0 ∧
    (update_input_stringF fuel st ns).rb1 = st.rb1 ∧
    (update_input_stringF fuel st ns).rb2 = st.rb2 ∧
    (update_input_stringF fuel st ns).max_history = st.max_history ∧
    (update_input_stringF fuel st ns).maxchar = st.maxchar ∧
    (update_input_stringF fuel st ns).maxwidth = st.maxwidth ∧
    (update_input_stringF fuel st ns).input_type = st.input_type ∧
    (update_input_stringF fuel st ns).block_copy_paste = st.block_copy_paste ∧
    (update_input_stringF fuel st ns).ellipsis = st.ellipsis := by
  induction fuel generalizing st ns with
  | zero => simp [update_input_stringF]
  | succ n ih =>
    unfold update_input_stringF
    dsimp only
    split_ifs with hcond hsync
    · obtain ih' := ih { st with history_index := (st.history.length : Int) }
        ((pyGet st.history st.history_index).getD [])

      obtain hf := history_insert_frame
        (update_input_stringF n { st with history_index := (st.history.length : Int) }
          ((pyGet st.history st.history_index).getD [])) ns
      simp only at ih' hf ⊢
      simp [hf.1, hf.2.1, hf.2.2.1, hf.2.2.2.1, hf.2.2.2.2.1, hf.2.2.2.2.2.1,
            hf.2.2.2.2.2.2.1, hf.2.2.2.2.2.2.2.1, hf.2.2.2.2.2.2.2.2.1,
            hf.2.2.2.2.2.2.2.2.2.1, hf.2.2.2.2.2.2.2.2.2.2,
            ih'.2.1, ih'.2.2.1, ih'.2.2.2.1, ih'.2.2.2.2.1, ih'.2.2.2.2.2.1,
            ih'.2.2.2.2.2.2.1, ih'.2.2.2.2.2.2.2.1, ih'.2.2.2.2.2.2.2.2.1,
            ih'.2.2.2.2.2.2.2.2.2.1, ih'.2.2.2.2.2.2.2.2.2.2]
    · obtain hf := history_insert_frame st ns
      simp [hf.1, hf.2.1, hf.2.2.1, hf.2.2.2.1, hf.2.2.2.2.1, hf.2.2.2.2.2.1,
            hf.2.2.2.2.2.2.1, hf.2.2.2.2.2.2.2.1, hf.2.2.2.2.2.2.2.2.1,
            hf.2.2.2.2.2.2.2.2.2.1, hf.2.2.2.2.2.2.2.2.2.2]
    · simp

/-! ### Claim C1: the render-window invariant -/

/-- The render-window invariant exactly as the claim states it. -/
def rbClaimInv (st : TextInput) : Prop :=
  0 ≤ st.rb0 ∧ st.rb0 ≤ st.rb1 ∧
  st.rb1 - st.rb0 ≤ (st.maxwidth : Int) ∧
  st.rb1 ≤ (st.input_string.length : Int) ∧
  0 ≤ st.rb2 ∧ st.rb2 ≤ min (st.maxwidth : Int) (st.input_string.length : Int)

instance (st : TextInput) : Decidable (rbClaimInv st) := by
  unfold rbClaimInv
  exact inferInstance

/-- The weakened render-window invariant that the editing and cursor
operations actually preserve: the bounds that tie rb1 to the string
length and rb2 to the exact string length fail on the early-return paths
of _update_renderbox, and only 0 <= rb0 <= rb1 together with
0 <= rb2 <= min maxwidth (max len 1) survives. -/
def rbWeakInv (st : TextInput) : Prop :=
  0 ≤ st.rb0 ∧ st.rb0 ≤ st.rb1 ∧
  0 ≤ st.rb2 ∧ st.rb2 ≤ min (st.maxwidth : Int) (max (st.input_string.length : Int) 1)

instance (st : TextInput) : Decidable (rbWeakInv st) := by
  unfold rbWeakInv
  exact inferInstance

set_option maxHeartbeats 1000000 in
theorem renderboxCells_inv (left right : Int) (addition toEnd toStart : Bool)
    (mw ls rb0 rb1 rb2 : Int)
    (hmw : 0 < mw) (hls : 0 ≤ ls)
    (h0 : 0 ≤ rb0) (h01 : rb0 ≤ rb1) (h2 : 0 ≤ rb2) (h2m : rb2 ≤ mw)
    (hx : left < 0 → ls = 0 → rb2 ≤ 1) :
    0 ≤ (renderboxCells left right addition toEnd toStart mw ls rb0 rb1 rb2).1 ∧
    (renderboxCells left right addition toEnd toStart mw ls rb0 rb1 rb2).1 ≤
      (renderboxCells left right addition toEnd toStart mw ls rb0 rb1 rb2).2.1 ∧
    0 ≤ (renderboxCells left right addition toEnd toStart mw ls rb0 rb1 rb2).2.2 ∧
    (renderboxCells left right addition toEnd toStart mw ls rb0 rb1 rb2).2.2 ≤ min mw (max ls 1) := by
  unfold renderboxCells
  cases addition <;> cases toEnd <;> cases toStart <;>
    simp only [Bool.false_eq_true, Bool.true_eq_false, false_and, true_and, and_false, and_true,
      not_false_iff, not_true, if_false, if_true, ite_true, ite_false, not_true_eq_false,
      not_false_eq_true] <;>
    (try split_ifs) <;> (try dsimp only) <;> omega

/-- The weakened invariant after any single _update_renderbox call, from
the bounds of the incoming cells. -/
theorem update_renderbox_weakInv (left right : Int) (addition toEnd toStart : Bool)
    (st : TextInput) (hmw : 0 < st.maxwidth)
    (h0 : 0 ≤ st.rb0) (h01 : st.rb0 ≤ st.rb1) (h2 : 0 ≤ st.rb2)
    (h2m : st.rb2 ≤ (st.maxwidth : Int))
    (hx : left < 0 → st.input_string.length = 0 → st.rb2 ≤ 1) :
    rbWeakInv (update_renderbox left right addition toEnd toStart st) := by
  have hne : ¬st.maxwidth = 0 := by omega
  have hcells := renderboxCells_inv left right addition toEnd toStart
    (st.maxwidth : Int) (st.input_string.length : Int) st.rb0 st.rb1 st.rb2
    (by exact_mod_cast hmw) (by positivity) h0 h01 h2 h2m
    (fun hl he => hx hl (by exact_mod_cast he))
  unfold update_renderbox rbWeakInv
  rw [if_neg hne]
  exact hcells

theorem rbWeakInv_rb2_le_mw (st : TextInput) (h : rbWeakInv st) :
    st.rb2 ≤ (st.maxwidth : Int) := by
  obtain ⟨-, -, -, h4⟩ := h
  omega

/-- A backspace can only empty the string when it had at most one
character. -/
theorem backspace_len_aux (p : Int) (n : Nat)
    (h : normIdx (max (p - 1) 0) n + (n - normIdx p n) = 0) : n ≤ 1 := by
  unfold normIdx at h
  split_ifs at h <;> omega

theorem rbWeakInv_update_input_string (st : TextInput) (ns : List Char)
    (hi : st.input_string = ns) (h : rbWeakInv st) :
    rbWeakInv (update_input_string st ns) := by
  obtain hf := uisF_frame 2 st ns
  unfold update_input_string
  unfold rbWeakInv at h ⊢
  rw [hf.1, hf.2.2.1, hf.2.2.2.1, hf.2.2.2.2.1, hf.2.2.2.2.2.2.2.1, ← hi]
  exact h

theorem rbWeakInv_doBackspace (st : TextInput) (hmw : 0 < st.maxwidth)
    (h : rbWeakInv st) : rbWeakInv (doBackspace st) := by
  unfold doBackspace
  obtain hf := uisF_frame 2 st
    (pyTakeI st.input_string (max (st.cursor_position - 1) 0) ++
     pyDropI st.input_string st.cursor_position)
  obtain ⟨h0, h01, h2, h24⟩ := h
  have hres := update_renderbox_weakInv (-1) 0 true false false
    (update_input_string st
      (pyTakeI st.input_string (max (st.cursor_position - 1) 0) ++
       pyDropI st.input_string st.cursor_position))
    (by rw [show update_input_string st _ = update_input_stringF 2 st _ from rfl, hf.2.2.2.2.2.2.2.1]; exact hmw)
    (by rw [show update_input_string st _ = update_input_stringF 2 st _ from rfl, hf.2.2.1]; exact h0)
    (by rw [show update_input_string st _ = update_input_stringF 2 st _ from rfl, hf.2.2.1, hf.2.2.2.1]; exact h01)
    (by rw [show update_input_string st _ = update_input_stringF 2 st _ from rfl, hf.2.2.2.2.1]; exact h2)
    (by rw [show update_input_string st _ = update_input_stringF 2 st _ from rfl,
          hf.2.2.2.2.1, hf.2.2.2.2.2.2.2.1]; omega)
    (by intro _ hlen
        rw [show update_input_string st _ = update_input_stringF 2 st _ from rfl, hf.2.2.2.2.1]
        rw [show update_input_string st _ = update_input_stringF 2 st _ from rfl, hf.1] at hlen
        simp only [List.length_append, pyTakeI_length, pyDropI_length] at hlen
        have hn := backspace_len_aux st.cursor_position st.input_string.length hlen
        omega)
  unfold rbWeakInv at hres ⊢
  exact hres

theorem rbWeakInv_doDelete (st : TextInput) (hmw : 0 < st.maxwidth)
    (h : rbWeakInv st) : rbWeakInv (doDelete st) := by
  unfold doDelete
  obtain hf := uisF_frame 2 st
    (pyTakeI st.input_string st.cursor_position ++
     pyDropI st.input_string (st.cursor_position + 1))
  obtain ⟨h0, h01, h2, h24⟩ := h
  apply update_renderbox_weakInv
  · rw [show update_input_string st _ = update_input_stringF 2 st _ from rfl, hf.2.2.2.2.2.2.2.1]
    exact hmw
  · rw [show update_input_string st _ = update_input_stringF 2 st _ from rfl, hf.2.2.1]
    exact h0
  · rw [show update_input_string st _ = update_input_stringF 2 st _ from rfl, hf.2.2.1, hf.2.2.2.1]
    exact h01
  · rw [show update_input_string st _ = update_input_stringF 2 st _ from rfl, hf.2.2.2.2.1]
    exact h2
  · rw [show update_input_string st _ = update_input_stringF 2 st _ from rfl,
      hf.2.2.2.2.1, hf.2.2.2.2.2.2.2.1]
    omega
  · intro hneg
    omega

theorem rbWeakInv_doAddChar (u : List Char) (st : TextInput) (hmw : 0 < st.maxwidth)
    (h : rbWeakInv st) : rbWeakInv (doAddChar u st) := by
  unfold doAddChar
  obtain ⟨h0, h01, h2, h24⟩ := h
  apply rbWeakInv_update_input_string
  · obtain hf := update_renderbox_frame 0 1 true false false
      { st with cursor_position := st.cursor_position + 1,
                input_string := pyTakeI st.input_string st.cursor_position ++ u ++
                                pyDropI st.input_string st.cursor_position }
    exact hf.1
  · apply update_renderbox_weakInv <;> dsimp only <;>
      first
        | exact hmw
        | exact h0
        | exact h01
        | exact h2
        | omega
        | (intro hneg hlen; omega)

theorem rbWeakInv_move_cursor_left (st : TextInput) (hmw : 0 < st.maxwidth)
    (h : rbWeakInv st) : rbWeakInv (move_cursor_left st) := by
  unfold move_cursor_left
  obtain ⟨h0, h01, h2, h24⟩ := h
  apply update_renderbox_weakInv <;> dsimp only <;>
    first
      | exact hmw
      | exact h0
      | exact h01
      | exact h2
      | omega
      | (intro hneg hlen; omega)

theorem rbWeakInv_move_cursor_right (st : TextInput) (hmw : 0 < st.maxwidth)
    (h : rbWeakInv st) : rbWeakInv (move_cursor_right st) := by
  unfold move_cursor_right
  obtain ⟨h0, h01, h2, h24⟩ := h
  apply update_renderbox_weakInv <;> dsimp only <;>
    first
      | exact hmw
      | exact h0
      | exact h01
      | exact h2
      | omega
      | (intro hneg hlen; omega)

theorem rbWeakInv_doHome (st : TextInput) (hmw : 0 < st.maxwidth)
    (h : rbWeakInv st) : rbWeakInv (doHome st) := by
  unfold doHome
  obtain ⟨h0, h01, h2, h24⟩ := h
  apply update_renderbox_weakInv <;> dsimp only <;>
    first
      | exact hmw
      | exact h0
      | exact h01
      | exact h2
      | omega
      | (intro hneg hlen; omega)

theorem rbWeakInv_doEnd (st : TextInput) (hmw : 0 < st.maxwidth)
    (h : rbWeakInv st) : rbWeakInv (doEnd st) := by
  unfold doEnd
  obtain ⟨h0, h01, h2, h24⟩ := h
  apply update_renderbox_weakInv <;> dsimp only <;>
    first
      | exact hmw
      | exact h0
      | exact h01
      | exact h2
      | omega
      | (intro hneg hlen; omega)

end TextInput

namespace TextInput

/-- A baseline widget state: a freshly relevant empty text input (the
other sample states below adjust individual fields). -/
def sampleTI : TextInput :=
  { input_string := [], cursor_position := 0, rb0 := 0, rb1 := 0, rb2 := 0,
    history := [], history_cursor := [], history_renderbox := [],
    history_index := 0, max_history := 50, maxchar := 0, maxwidth := 0,
    input_type := InputType.text, block_copy_paste := false,
    ellipsis := ['.', '.', '.'] }

/-- The state of a TextInput(maxwidth=5, history=0) holding "a" with the
cursor after the character: reachable by typing "a" (or from default="a";
the renderbox is then (0, 0, 1) because the constructor only issues
cursor-right renderbox updates, which leave rb1 at 0 while the string does
not overflow). -/
def c1state : TextInput :=
  { sampleTI with input_string := ['a'], cursor_position := 1, rb2 := 1,
                  maxwidth := 5, max_history := 0 }

/-- Claim C1 is false: the state above satisfies the claimed render-window
invariant, yet one backspace (string becomes empty, and
_update_renderbox(left=-1, addition=True) returns early on "left < 0 and
ls == 0" without touching the stale cells) leaves rb2 = 1 above
min(maxwidth, len) = 0 and so violates the invariant. -/
theorem c1_counterexample :
    rbClaimInv c1state ∧ ¬rbClaimInv (applyEditOp EditOp.backspace c1state) := by
  decide

/-- Amended claim C1: with maxwidth > 0, every editing or cursor operation
applied through _update_renderbox preserves the weakened render-window
invariant 0 <= rb0 <= rb1 and 0 <= rb2 <= min(maxwidth, max(len, 1)); the
claimed bounds rb1 <= len, rb1 - rb0 <= maxwidth and rb2 <= len do not
survive the early-return paths of _update_renderbox. -/
theorem c1_amended (op : EditOp) (st : TextInput) (hmw : 0 < st.maxwidth)
    (h : rbWeakInv st) : rbWeakInv (applyEditOp op st) := by
  cases op with
  | addChar u => exact rbWeakInv_doAddChar u st hmw h
  | backspace => exact rbWeakInv_doBackspace st hmw h
  | delete => exact rbWeakInv_doDelete st hmw h
  | moveLeft => exact rbWeakInv_move_cursor_left st hmw h
  | moveRight => exact rbWeakInv_move_cursor_right st hmw h
  | home => exact rbWeakInv_doHome st hmw h
  | toEnd => exact rbWeakInv_doEnd st hmw h

/-- The amended C1 theorem applied at the counterexample state and the
backspace operation. -/
theorem c1_amended_witness :
    0 < c1state.maxwidth ∧ rbWeakInv c1state ∧
    rbWeakInv (applyEditOp EditOp.backspace c1state) :=
  ⟨by decide, by decide, c1_amended EditOp.backspace c1state (by decide) (by decide)⟩

end TextInput

theorem pyInsertI_length {α : Type} (i : Int) (x : α) (l : List α) :
    (pyInsertI i x l).length = l.length + 1 := by
  unfold pyInsertI
  dsimp only
  simp only [List.length_append, List.length_take, List.length_cons, List.length_drop]
  omega

namespace TextInput

/-! ### Claim C3: the history bookkeeping invariant -/

/-- The history invariant of claim C3: the three history lists stay in
step, never grow beyond max_history, and the history index stays inside
[0, len(history)]. -/
def histInv (st : TextInput) : Prop :=
  st.history.length = st.history_cursor.length ∧
  st.history.length = st.history_renderbox.length ∧
  st.history.length ≤ st.max_history ∧
  0 ≤ st.history_index ∧ st.history_index ≤ (st.history.length : Int)

instance (st : TextInput) : Decidable (histInv st) := by
  unfold histInv
  exact inferInstance

theorem history_insert_histInv (st : TextInput) (ns : List Char) (h : histInv st) :
    histInv (history_insert st ns) := by
  obtain ⟨hl1, hl2, hlm, hi0, hil⟩ := h
  unfold history_insert histInv
  dsimp only
  split_ifs with hpop <;>
    simp only [pyInsertI_length, List.length_drop] at hpop ⊢ <;> omega

theorem uisF_histInv (fuel : Nat) (st : TextInput) (ns : List Char) (h : histInv st) :
    histInv (update_input_stringF fuel st ns) := by
  induction fuel generalizing st ns with
  | zero =>
    obtain ⟨hl1, hl2, hlm, hi0, hil⟩ := h
    unfold update_input_stringF histInv
    exact ⟨hl1, hl2, hlm, hi0, hil⟩
  | succ n ih =>
    unfold update_input_stringF
    dsimp only
    split_ifs with hcond hsync
    · have hst' : histInv { st with history_index := (st.history.length : Int) } := by
        obtain ⟨hl1, hl2, hlm, hi0, hil⟩ := h
        exact ⟨hl1, hl2, hlm, by positivity, le_refl _⟩
      have h1 := ih { st with history_index := (st.history.length : Int) }
        ((pyGet st.history st.history_index).getD []) hst'
      have h2 := history_insert_histInv _ ns h1
      obtain ⟨hl1, hl2, hlm, hi0, hil⟩ := h2
      exact ⟨hl1, hl2, hlm, hi0, hil⟩
    · have h2 := history_insert_histInv st ns h
      obtain ⟨hl1, hl2, hlm, hi0, hil⟩ := h2
      exact ⟨hl1, hl2, hlm, hi0, hil⟩
    · obtain ⟨hl1, hl2, hlm, hi0, hil⟩ := h
      exact ⟨hl1, hl2, hlm, hi0, hil⟩

/-- The widget state right after TextInput.__init__ initialises the
history fields (before the default value is pushed through
_update_input_string): empty lists, index 0, max_history = history. -/
def initialState (history maxchar maxwidth : Nat) (ty : InputType)
    (ell : List Char) : TextInput :=
  { input_string := [], cursor_position := 0, rb0 := 0, rb1 := 0, rb2 := 0,
    history := [], history_cursor := [], history_renderbox := [],
    history_index := 0, max_history := history, maxchar := maxchar,
    maxwidth := maxwidth, input_type := ty, block_copy_paste := false,
    ellipsis := ell }

/-- Claim C3: _update_input_string keeps the three history lists of equal
length, bounded by the history constructor argument, with
0 <= history_index <= len(history); the invariant holds at construction,
every call preserves it, and a call whose new string equals the last
stored edition, or made with history = 0, leaves the history lists and
the index untouched. -/
theorem c3_history_invariant :
    (∀ (h maxchar maxwidth : Nat) (ty : InputType) (ell : List Char),
       histInv (initialState h maxchar maxwidth ty ell)) ∧
    (∀ (st : TextInput) (ns : List Char),
       histInv st → histInv (update_input_string st ns)) ∧
    (∀ (st : TextInput) (ns : List Char),
       ((0 < st.history.length ∧
         pyGet st.history ((st.history.length : Int) - 1) = some ns) ∨
        st.max_history = 0) →
       (update_input_string st ns).history = st.history ∧
       (update_input_string st ns).history_cursor = st.history_cursor ∧
       (update_input_string st ns).history_renderbox = st.history_renderbox ∧
       (update_input_string st ns).history_index = st.history_index ∧
       (update_input_string st ns).input_string = ns) := by
  refine ⟨?_, ?_, ?_⟩
  · intro h maxchar maxwidth ty ell
    exact ⟨rfl, rfl, by simp [initialState], le_refl _, by simp [initialState]⟩
  · intro st ns h
    exact uisF_histInv 2 st ns h
  · intro st ns hno
    have hfalse : ¬(((0 < st.history.length ∧
        pyGet st.history ((st.history.length : Int) - 1) ≠ some ns) ∨
        st.history.length = 0) ∧ 0 < st.max_history) := by
      rcases hno with ⟨hpos, hlast⟩ | hm
      · rintro ⟨⟨-, hne⟩ | hzero, -⟩
        · exact hne hlast
        · omega
      · rintro ⟨-, hmh⟩
        omega
    unfold update_input_string update_input_stringF
    dsimp only
    rw [if_neg hfalse]
    exact ⟨rfl, rfl, rfl, rfl, rfl⟩

/-- The C3 theorem applied at a concrete state: a no-op update (the new
string equals the last stored edition) and invariant preservation. -/
theorem c3_history_invariant_witness :
    histInv sampleTI ∧ histInv (update_input_string sampleTI ['a']) ∧
    ((0 < c1state.history.length ∧
      pyGet c1state.history ((c1state.history.length : Int) - 1) = some ['a']) ∨
     c1state.max_history = 0) ∧
    (update_input_string c1state ['a']).history = c1state.history :=
  ⟨by decide, c3_history_invariant.2.1 sampleTI ['a'] (by decide), by decide,
   (c3_history_invariant.2.2 c1state ['a'] (by decide)).1⟩

end TextInput

theorem pyGet_lt {α : Type} (l : List α) (i : Int) (h0 : 0 ≤ i)
    (hl : i < (l.length : Int)) : ∃ x, pyGet l i = some x := by
  rw [pyGet_of_nonneg l i h0]
  cases hx : l.get? i.toNat with
  | none =>
    exfalso
    have := List.get?_eq_none.mp hx
    omega
  | some x => exact ⟨x, rfl⟩

namespace TextInput

/-! ### Claim C2: undo and redo -/

theorem update_from_history_success (st : TextInput)
    (hc : st.history.length = st.history_cursor.length)
    (hr : st.history.length = st.history_renderbox.length)
    (h0 : 0 ≤ st.history_index)
    (hl : st.history_index < (st.history.length : Int)) :
    ∃ st2, update_from_history st = some st2 ∧
      st2.history_index = st.history_index ∧
      pyGet st.history st.history_index = some st2.input_string ∧
      pyGet st.history_cursor st.history_index = some st2.cursor_position ∧
      pyGet st.history_renderbox st.history_index = some (st2.rb0, st2.rb1, st2.rb2) ∧
      st2.history = st.history ∧ st2.history_cursor = st.history_cursor ∧
      st2.history_renderbox = st.history_renderbox ∧
      st2.max_history = st.max_history := by
  obtain ⟨s, hs⟩ := pyGet_lt st.history st.history_index h0 hl
  obtain ⟨c, hcs⟩ := pyGet_lt st.history_cursor st.history_index h0 (by omega)
  obtain ⟨rb, hrb⟩ := pyGet_lt st.history_renderbox st.history_index h0 (by omega)
  classical
  set st2 : TextInput := { st with input_string := s, rb0 := rb.1, rb1 := rb.2.1, rb2 := rb.2.2, cursor_position := c } with hst2
  refine ⟨st2, ?_, rfl, ?_, ?_, ?_, rfl, rfl, rfl, rfl⟩
  · unfold update_from_history
    rw [hs, hrb, hcs]
  · exact hs
  · exact hcs
  · rw [hrb]

/-- The behaviour claim C2 makes for _redo at a given state: False when
the index sits at len(history) - 1, otherwise a successful restore
returning True. -/
def c2RedoClaim (st : TextInput) : Prop :=
  (st.history_index = (st.history.length : Int) - 1 → redo st = some (st, false)) ∧
  (st.history_index ≠ (st.history.length : Int) - 1 →
    ∃ st2, redo st = some (st2, true))

/-- Claim C2 is false for _redo on a widget whose history is empty (as
built by TextInput(history=0)): the guard compares the index 0 against
len(_history) - 1 = -1, so the method proceeds, moves the index to -1 and
raises IndexError instead of restoring a state and returning True. -/
theorem c2_counterexample : ¬c2RedoClaim { sampleTI with max_history := 0 } := by
  intro hcl
  obtain ⟨r, hr⟩ := hcl.2 (by decide)
  have hnone : redo { sampleTI with max_history := 0 } = none := by decide
  rw [hnone] at hr
  exact Option.noConfusion hr

/-- Amended claim C2: on a widget whose history lists are consistent
(equal lengths, 0 <= _history_index <= len(_history)), _undo returns
False leaving everything unchanged exactly when _history_index == 0 and
otherwise steps the index back to the previous stored edition, restores
string, cursor and renderbox from it and returns True; _redo returns
False leaving everything unchanged exactly when
_history_index == len(_history) - 1, and otherwise, provided the history
is non-empty, advances the index by one (clamped to len(_history) - 1),
restores the stored state there and returns True — but with an empty
history (history=0 construction) _redo instead raises IndexError. -/
theorem c2_amended (st : TextInput)
    (hc : st.history.length = st.history_cursor.length)
    (hr : st.history.length = st.history_renderbox.length)
    (hi0 : 0 ≤ st.history_index)
    (hil : st.history_index ≤ (st.history.length : Int)) :
    (st.history_index = 0 → undo st = some (st, false)) ∧
    (st.history_index ≠ 0 →
      ∃ st2, undo st = some (st2, true) ∧
        st2.history_index =
          max 0 ((if st.history_index = (st.history.length : Int)
                  then st.history_index - 1 else st.history_index) - 1) ∧
        pyGet st.history st2.history_index = some st2.input_string ∧
        pyGet st.history_cursor st2.history_index = some st2.cursor_position ∧
        pyGet st.history_renderbox st2.history_index = some (st2.rb0, st2.rb1, st2.rb2) ∧
        st2.history = st.history ∧ st2.history_cursor = st.history_cursor ∧
        st2.history_renderbox = st.history_renderbox) ∧
    (st.history = [] → redo st = none) ∧
    (st.history ≠ [] → st.history_index = (st.history.length : Int) - 1 →
      redo st = some (st, false)) ∧
    (st.history ≠ [] → st.history_index ≠ (st.history.length : Int) - 1 →
      ∃ st2, redo st = some (st2, true) ∧
        st2.history_index = min ((st.history.length : Int) - 1) (st.history_index + 1) ∧
        pyGet st.history st2.history_index = some st2.input_string ∧
        pyGet st.history_cursor st2.history_index = some st2.cursor_position ∧
        pyGet st.history_renderbox st2.history_index = some (st2.rb0, st2.rb1, st2.rb2) ∧
        st2.history = st.history ∧ st2.history_cursor = st.history_cursor ∧
        st2.history_renderbox = st.history_renderbox) := by
  refine ⟨?_, ?_, ?_, ?_, ?_⟩
  · intro h
    unfold undo
    rw [if_pos h]
  · intro h
    unfold undo
    rw [if_neg h]
    dsimp only
    set i2 : Int := max 0 ((if st.history_index = (st.history.length : Int)
      then st.history_index - 1 else st.history_index) - 1) with hi2
    have hb : 0 ≤ i2 ∧ i2 < (st.history.length : Int) := by
      rw [hi2]
      split_ifs with he <;> omega
    obtain ⟨st2, hu, hidx, hgs, hgc, hgr, hh, hhc, hhr, hm⟩ :=
      update_from_history_success { st with history_index := i2 } hc hr hb.1 hb.2
    refine ⟨st2, ?_, ?_, ?_, ?_, ?_, hh, hhc, hhr⟩
    · rw [hu]
      rfl
    · rw [hidx]
    · rw [hidx]; exact hgs
    · rw [hidx]; exact hgc
    · rw [hidx]; exact hgr
  · intro h
    have hidx0 : st.history_index = 0 := by
      rw [h] at hil
      simp at hil
      omega
    unfold redo
    rw [if_neg (by rw [hidx0, h]; decide)]
    dsimp only
    have hnone : pyGet st.history (min ((st.history.length : Int) - 1) (st.history_index + 1)) = none := by
      rw [h, hidx0]
      decide
    unfold update_from_history
    dsimp only
    rw [hnone]
    rfl
  · intro _ h
    unfold redo
    rw [if_pos h]
  · intro hne h
    unfold redo
    rw [if_neg h]
    dsimp only
    have hlen : 0 < st.history.length := List.length_pos.mpr hne
    have hb : 0 ≤ min ((st.history.length : Int) - 1) (st.history_index + 1) ∧
        min ((st.history.length : Int) - 1) (st.history_index + 1) <
          (st.history.length : Int) := by omega
    obtain ⟨st2, hu, hidx, hgs, hgc, hgr, hh, hhc, hhr, hm⟩ :=
      update_from_history_success
        { st with history_index := min ((st.history.length : Int) - 1) (st.history_index + 1) }
        hc hr hb.1 hb.2
    refine ⟨st2, ?_, ?_, ?_, ?_, ?_, hh, hhc, hhr⟩
    · rw [hu]
      rfl
    · rw [hidx]
    · rw [hidx]; exact hgs
    · rw [hidx]; exact hgc
    · rw [hidx]; exact hgr

/-- A consistent one-entry history used to witness the amended C2. -/
def c2histSt : TextInput :=
  { sampleTI with history := [['a']], history_cursor := [0],
                  history_renderbox := [(0, 0, 0)], history_index := 1 }

/-- The amended C2 theorem applied at concrete states: a successful undo
on a one-entry history and the IndexError of redo on an empty history. -/
theorem c2_amended_witness :
    (∃ st2, undo c2histSt = some (st2, true) ∧
      st2.history_index =
        max 0 ((if c2histSt.history_index = (c2histSt.history.length : Int)
                then c2histSt.history_index - 1 else c2histSt.history_index) - 1) ∧
      pyGet c2histSt.history st2.history_index = some st2.input_string ∧
      pyGet c2histSt.history_cursor st2.history_index = some st2.cursor_position ∧
      pyGet c2histSt.history_renderbox st2.history_index = some (st2.rb0, st2.rb1, st2.rb2) ∧
      st2.history = c2histSt.history ∧ st2.history_cursor = c2histSt.history_cursor ∧
      st2.history_renderbox = c2histSt.history_renderbox) ∧
    redo { sampleTI with max_history := 0 } = none :=
  ⟨(c2_amended c2histSt rfl rfl (by decide) (by decide)).2.1 (by decide),
   (c2_amended { sampleTI with max_history := 0 } rfl rfl (by decide) (by decide)).2.2.1 rfl⟩

end TextInput

theorem normIdx_le_toNat (i : Int) (n : Nat) (h0 : 0 ≤ i) : normIdx i n ≤ i.toNat := by
  unfold normIdx
  split_ifs <;> omega

namespace TextInput

/-! ### Claim C4: paste under the maxchar limit -/

/-- The new_string that _paste builds when maxchar is non-zero: the
clipboard text, post-processed and truncated to maxchar - len + 1
characters, inserted at the cursor. -/
def pasteNewString (clip : List Char) (st : TextInput) : List Char :=
  pyTakeI st.input_string st.cursor_position ++
  pyTakeI (processClipboard clip)
    (min ((st.maxchar : Int) - st.input_string.length + 1) ((processClipboard clip).length : Int)) ++
  pyDropI st.input_string st.cursor_position

/-- The paste limit state: a full 3-character input with maxchar = 3. -/
def c4state : TextInput :=
  { sampleTI with input_string := ['a', 'b', 'c'], cursor_position := 3,
                  maxchar := 3, max_history := 0 }

/-- Claim C4 is false: pasting one character into a TextInput(maxchar=3)
already holding three characters succeeds and leaves a string of length
4 > maxchar, because the limit is computed as maxchar - len + 1 (one more
than the remaining space). -/
theorem c4_counterexample :
    (paste ['x'] c4state).2.1 = true ∧
    c4state.maxchar < (paste ['x'] c4state).1.input_string.length := by
  decide

/-- Amended claim C4: with maxchar > 0, _paste never makes the input grow
beyond maxchar + 1 (not maxchar): when the input already exceeds maxchar
it plays an error and returns False leaving _input_string unchanged, and
otherwise — when not blocked, the processed clipboard text is non-empty
and the combined string passes the type check — it inserts the processed
clipboard text truncated to maxchar - len + 1 characters (one more than
the remaining space) at _cursor_position and returns True, so the result
can reach maxchar + 1 characters. -/
theorem c4_amended (st : TextInput) (clip : List Char) (hmc : 0 < st.maxchar) :
    ((paste clip st).1.input_string.length ≤ max st.input_string.length (st.maxchar + 1)) ∧
    (st.maxchar < st.input_string.length →
      (paste clip st).1 = st ∧ (paste clip st).2.1 = false) ∧
    (st.block_copy_paste = false → processClipboard clip ≠ [] →
     st.input_string.length ≤ st.maxchar →
     check_input_type st.input_type (pasteNewString clip st) = true →
      (paste clip st).2.1 = true ∧
      (paste clip st).1.input_string = pasteNewString clip st ∧
      (pasteNewString clip st).length ≤ st.maxchar + 1) := by
  have hne : ¬st.maxchar = 0 := by omega
  have hb := normIdx_le_toNat
    (min ((st.maxchar : Int) - st.input_string.length + 1)
      ((processClipboard clip).length : Int)) (processClipboard clip).length
  have hc := normIdx_le st.cursor_position st.input_string.length
  refine ⟨?_, ?_, ?_⟩
  · unfold paste
    simp only [ne_eq, hne, not_false_eq_true, if_true, true_and]
    split_ifs with h1 h2 h3 h4
    · dsimp only
      omega
    · dsimp only
      omega
    · dsimp only
      omega
    · dsimp only
      unfold update_input_string
      rw [(uisF_frame 2 _ _).1]
      simp only [List.length_append, pyTakeI_length, pyDropI_length]
      have htl : 0 < (processClipboard clip).length := List.length_pos.mpr h2
      omega
    · dsimp only
      omega
  · intro hover
    unfold paste
    simp only [ne_eq, hne, not_false_eq_true, if_true, true_and]
    split_ifs with h1 h2 h3 h4
    · exact ⟨rfl, rfl⟩
    · exact ⟨rfl, rfl⟩
    · exact ⟨rfl, rfl⟩
    · exfalso
      have htl : 0 < (processClipboard clip).length := List.length_pos.mpr h2
      omega
    · exact ⟨rfl, rfl⟩
  · intro hbl hcl hfit hty
    unfold paste
    simp only [ne_eq, hne, not_false_eq_true, if_true, true_and]
    have htl : 0 < (processClipboard clip).length := List.length_pos.mpr hcl
    split_ifs with h1 h2 h3
    · rw [hbl] at h1
      exact absurd h1 (by decide)
    · exfalso
      omega
    · refine ⟨rfl, ?_, ?_⟩
      · dsimp only
        unfold update_input_string
        rw [(uisF_frame 2 _ _).1]
        unfold pasteNewString
        rfl
      · unfold pasteNewString
        simp only [List.length_append, pyTakeI_length, pyDropI_length]
        omega
    · exfalso
      apply h3
      unfold pasteNewString at hty
      exact hty

/-- A paste that fits: maxchar 5, two characters present, two pasted. -/
def c4wit : TextInput :=
  { sampleTI with input_string := ['a', 'b'], cursor_position := 2,
                  maxchar := 5, max_history := 0 }

/-- The amended C4 theorem applied at a concrete in-bounds paste. -/
theorem c4_amended_witness :
    (paste ['x', 'y'] c4wit).2.1 = true ∧
    (paste ['x', 'y'] c4wit).1.input_string = pasteNewString ['x', 'y'] c4wit ∧
    (pasteNewString ['x', 'y'] c4wit).length ≤ c4wit.maxchar + 1 :=
  (c4_amended c4wit ['x', 'y'] (by decide)).2.2 (by decide) (by decide)
    (by decide) (by decide)

end TextInput

namespace TextInput

/-! ### Claim C5: _get_input_string -/

/-- Claim C5: _get_input_string returns the raw string when maxwidth is 0
or nothing overflows, and otherwise the window
_input_string[_renderbox[0]:_renderbox[1]] with the ellipsis appended iff
the window does not reach the end and prepended iff it does not start at
0.  The renderbox bounds hypotheses express the slice in take/drop form. -/
theorem c5_get_input_string (st : TextInput)
    (h0 : 0 ≤ st.rb0) (h01 : st.rb0 ≤ st.rb1)
    (h1 : st.rb1 ≤ (st.input_string.length : Int)) :
    (st.maxwidth = 0 ∨ st.input_string.length ≤ st.maxwidth →
      get_input_string st = st.input_string) ∧
    (st.maxwidth ≠ 0 → st.maxwidth < st.input_string.length →
      get_input_string st =
        (if st.rb0 ≠ 0 then st.ellipsis else []) ++
        ((st.input_string.drop st.rb0.toNat).take (st.rb1 - st.rb0).toNat ++
         (if st.rb1 ≠ (st.input_string.length : Int) then st.ellipsis else []))) := by
  constructor
  · intro hcase
    unfold get_input_string
    rw [if_neg (by rcases hcase with hc | hc <;> simp <;> omega)]
  · intro hmw hlt
    unfold get_input_string
    rw [if_pos ⟨hmw, hlt⟩]
    have hs : pySliceI st.input_string st.rb0 st.rb1 =
        (st.input_string.drop st.rb0.toNat).take (st.rb1 - st.rb0).toNat := by
      unfold pySliceI
      rw [normIdx_of_mem st.rb0 st.input_string.length h0 (by omega),
          normIdx_of_mem st.rb1 st.input_string.length (by omega) h1]
      congr 1
      omega
    rw [hs]
    split_ifs with ha hb <;> simp

/-! ### Claim C8: _check_input_type pairs int input with float() -/

/-- Claim C8: _check_input_type accepts, for a PYGAME_INPUT_INT widget,
exactly the strings float() accepts (so "3.5" enters an integer input),
and for PYGAME_INPUT_FLOAT exactly the strings int() accepts (so "3.5" is
rejected); the empty string and "-" pass for every input type, and
get_value falls back to the int 0 whenever the stored string fails the
type's own conversion. -/
theorem c8_input_type_swap :
    (∀ s : List Char, s ≠ [] → s ≠ ['-'] →
      check_input_type InputType.int s = pyFloatParses s ∧
      check_input_type InputType.float s = pyIntParses s) ∧
    (∀ ty : InputType, check_input_type ty [] = true ∧
      check_input_type ty ['-'] = true) ∧
    (check_input_type InputType.int ['3', '.', '5'] = true ∧
     check_input_type InputType.float ['3', '.', '5'] = false) ∧
    (∀ st : TextInput, st.input_type = InputType.int →
      pyIntParses st.input_string = false → get_value st = PyVal.int 0) ∧
    (∀ st : TextInput, st.input_type = InputType.float →
      pyFloatParses st.input_string = false → get_value st = PyVal.int 0) := by
  refine ⟨?_, ?_, by decide, ?_, ?_⟩
  · intro s hne hnd
    constructor <;> simp [check_input_type, hne, hnd]
  · intro ty
    cases ty <;> exact ⟨by decide, by decide⟩
  · intro st hty hp
    simp [get_value, hty, hp]
  · intro st hty hp
    simp [get_value, hty, hp]

/-- A widget typed as an integer input storing "3.5". -/
def c8wit : TextInput :=
  { sampleTI with input_type := InputType.int, input_string := ['3', '.', '5'] }

/-- The C8 theorem applied at "3.5" and a widget storing it as an int
input. -/
theorem c8_input_type_swap_witness :
    check_input_type InputType.int ['3', '.', '5'] = pyFloatParses ['3', '.', '5'] ∧
    get_value c8wit = PyVal.int 0 :=
  ⟨(c8_input_type_swap.1 ['3', '.', '5'] (by decide) (by decide)).1,
   c8_input_type_swap.2.2.2.1 c8wit rfl (by decide)⟩

/-- An overflowing widget: "abcdef" with maxwidth 3 and window [2, 5). -/
def c5wit : TextInput :=
  { sampleTI with input_string := ['a', 'b', 'c', 'd', 'e', 'f'],
                  maxwidth := 3, rb0 := 2, rb1 := 5, rb2 := 1 }

/-- The C5 theorem applied at a non-overflowing and an overflowing
state. -/
theorem c5_get_input_string_witness :
    get_input_string sampleTI = sampleTI.input_string ∧
    get_input_string c5wit =
      (if c5wit.rb0 ≠ 0 then c5wit.ellipsis else []) ++
      ((c5wit.input_string.drop c5wit.rb0.toNat).take (c5wit.rb1 - c5wit.rb0).toNat ++
       (if c5wit.rb1 ≠ (c5wit.input_string.length : Int) then c5wit.ellipsis else [])) :=
  ⟨(c5_get_input_string sampleTI (by decide) (by decide) (by decide)).1 (Or.inl rfl),
   (c5_get_input_string c5wit (by decide) (by decide) (by decide)).2 (by decide) (by decide)⟩

end TextInput

namespace Sound

/-! ### Claim C9: get_channel and the unique-channel flag -/

/-- Claim C9: once a Sound created with uniquechannel=True has stored a
channel, every later get_channel call returns that stored channel and
ignores whatever mixer.find_channel returns (the state is unchanged, so
this persists across any sequence of calls); with uniquechannel=False
every call stores and returns the freshly found channel. -/
theorem c9_get_channel :
    (∀ (s : Sound) (c : Channel) (found : Option Channel),
      s.uniquechannel = true → s.channel = some c →
      get_channel found s = (some c, s)) ∧
    (∀ (s : Sound) (found : Option Channel),
      s.uniquechannel = false →
      get_channel found s = (found, { s with channel := found })) ∧
    (∀ (s : Sound) (c : Channel) (finds : List (Option Channel)),
      s.uniquechannel = true → s.channel = some c →
      get_channel_seq finds s = (finds.map (fun _ => some c), s)) := by
  have hone : ∀ (s : Sound) (c : Channel) (found : Option Channel),
      s.uniquechannel = true → s.channel = some c →
      get_channel found s = (some c, s) := by
    intro s c found hu hc
    unfold get_channel
    rw [if_pos hu, hc]
  refine ⟨hone, ?_, ?_⟩
  · intro s found hu
    unfold get_channel
    rw [hu]
    simp
  · intro s c finds hu hc
    induction finds with
    | nil => rfl
    | cons f fs ih =>
      unfold get_channel_seq
      rw [hone s c f hu hc]
      dsimp only
      rw [ih]
      simp

/-- A unique-channel Sound that has stored channel 7. -/
def c9wit : Sound :=
  { uniquechannel := true, channel := some 7, sounds := initSounds }

/-- The C9 theorem applied at concrete states: the stored channel 7 wins
over a mixer answer of 3, and a non-unique Sound takes the fresh answer. -/
theorem c9_get_channel_witness :
    get_channel (some 3) c9wit = (some 7, c9wit) ∧
    get_channel_seq [some 3, none, some 5] c9wit =
      ([some 7, some 7, some 7], c9wit) ∧
    get_channel (some 3) { c9wit with uniquechannel := false } =
      (some 3, { c9wit with uniquechannel := false, channel := some 3 }) :=
  ⟨c9_get_channel.1 c9wit 7 (some 3) rfl rfl,
   c9_get_channel.2.2 c9wit 7 [some 3, none, some 5] rfl rfl,
   c9_get_channel.2.1 { c9wit with uniquechannel := false } (some 3) rfl⟩

/-! ### Claim C10: set_sound validation -/

theorem dictGet_dictSet_self (k : String) (v : SEntry) (l : List (String × SEntry)) :
    dictGet k (dictSet k v l) = some v := by
  induction l with
  | nil => simp [dictSet, dictGet]
  | cons p r ih =>
    obtain ⟨pk, pv⟩ := p
    by_cases hp : pk = k
    · simp [dictSet, dictGet, hp]
    · simp only [dictSet, dictGet, hp, if_false, ite_false]
      exact ih

theorem dictGet_dictSet_other (k q : String) (v : SEntry)
    (l : List (String × SEntry)) (h : q ≠ k) :
    dictGet q (dictSet k v l) = dictGet q l := by
  induction l with
  | nil => simp [dictSet, dictGet, Ne.symm h]
  | cons p r ih =>
    obtain ⟨pk, pv⟩ := p
    by_cases hp : pk = k
    · subst hp
      simp [dictSet, dictGet, Ne.symm h]
    · by_cases hq : pk = q <;> simp [dictSet, dictGet, hp, hq, ih, h]

/-- The behaviour claim C10 asserts for the ValueError case, at a given
argument tuple: ValueError is raised if and only if the sound type is not
one of the eight predefined constants. -/
def c10ValueErrClaim (isfile : String → Bool) (loadOk : Bool) (sound : String)
    (file : Option String) (volume : Rat) (loops : Int) (maxtime fade_ms : Rat)
    (s : Sound) : Prop :=
  (set_sound isfile loadOk sound file volume loops maxtime fade_ms s =
    Except.error PyErr.valueErr) ↔ sound ∉ type_sounds

/-- Claim C10 is false as an iff: with an invalid sound type but an
argument violating an assertion (loops = -1), set_sound raises
AssertionError, not ValueError, because the assert statements run first. -/
theorem c10_counterexample :
    ¬c10ValueErrClaim (fun _ => false) true "bogus" none 0 (-1) 0 0
      { uniquechannel := true, channel := none, sounds := initSounds } := by
  intro h
  have hb : "bogus" ∉ type_sounds := by decide
  have h2 := h.mpr hb
  have h3 : set_sound (fun _ => false) true "bogus" none 0 (-1) 0 0
      { uniquechannel := true, channel := none, sounds := initSounds } =
      Except.error PyErr.assertErr := rfl
  rw [h3] at h2
  exact absurd (Except.error.inj h2) (by decide)

/-- Amended claim C10: provided the argument assertions pass (loops,
maxtime and fade_ms non-negative, volume between 0 and 1), set_sound
raises ValueError iff the sound type is not one of the eight predefined
constants (the stored entries are untouched, as no state is returned);
with a valid type and file=None it resets exactly that type's entry to
empty and leaves every other entry unchanged; and with a valid type and a
path that is not an existing file it raises FileNotFoundError. -/
theorem c10_amended (isfile : String → Bool) (loadOk : Bool) (sound : String)
    (file : Option String) (volume : Rat) (loops : Int) (maxtime fade_ms : Rat)
    (s : Sound)
    (hl : 0 ≤ loops) (hm : 0 ≤ maxtime) (hf : 0 ≤ fade_ms)
    (hv : 0 ≤ volume ∧ volume ≤ 1) :
    ((set_sound isfile loadOk sound file volume loops maxtime fade_ms s =
        Except.error PyErr.valueErr) ↔ sound ∉ type_sounds) ∧
    (sound ∈ type_sounds → file = none →
      set_sound isfile loadOk sound file volume loops maxtime fade_ms s =
        Except.ok { s with sounds := dictSet sound SEntry.empty s.sounds } ∧
      dictGet sound (dictSet sound SEntry.empty s.sounds) = some SEntry.empty ∧
      (∀ k, k ≠ sound → dictGet k (dictSet sound SEntry.empty s.sounds) =
        dictGet k s.sounds)) ∧
    (∀ f, sound ∈ type_sounds → file = some f → isfile f = false →
      set_sound isfile loadOk sound file volume loops maxtime fade_ms s =
        Except.error PyErr.fileNotFoundErr) := by
  have h1 : ¬¬(0 ≤ loops) := not_not_intro hl
  refine ⟨?_, ?_, ?_⟩
  · unfold set_sound
    rw [if_neg h1, if_neg (not_not_intro hm), if_neg (not_not_intro hf),
        if_neg (not_not_intro hv)]
    constructor
    · intro h
      by_cases hmem : sound ∈ type_sounds
      · exfalso
        rw [if_neg (not_not_intro hmem)] at h
        rcases file with _ | f
        · exact Except.noConfusion h
        · dsimp only at h
          split_ifs at h with hisf hload <;>
            first
              | exact absurd (Except.error.inj h) (by decide)
              | exact Except.noConfusion h
      · exact hmem
    · intro hmem
      rw [if_pos hmem]
  · intro hmem hfile
    unfold set_sound
    rw [if_neg h1, if_neg (not_not_intro hm), if_neg (not_not_intro hf),
        if_neg (not_not_intro hv), if_neg (not_not_intro hmem), hfile]
    refine ⟨rfl, dictGet_dictSet_self sound SEntry.empty s.sounds, ?_⟩
    intro k hk
    exact dictGet_dictSet_other sound k SEntry.empty s.sounds hk
  · intro f hmem hfile hisf
    unfold set_sound
    rw [if_neg h1, if_neg (not_not_intro hm), if_neg (not_not_intro hf),
        if_neg (not_not_intro hv), if_neg (not_not_intro hmem), hfile]
    dsimp only
    rw [if_pos (by rw [hisf]; exact Bool.false_ne_true)]

/-- A fresh Sound object. -/
def c10wit : Sound :=
  { uniquechannel := true, channel := none, sounds := initSounds }

/-- The sound state after disabling the error sound entry. -/
def c10witReset : Sound :=
  { c10wit with sounds := dictSet "__pygameMenu_sound_error__" SEntry.empty c10wit.sounds }

/-- The amended C10 theorem applied at concrete argument tuples: a bogus
type raises ValueError, disabling the error sound resets its entry only,
and a missing file raises FileNotFoundError. -/
theorem c10_amended_witness :
    (set_sound (fun _ => false) true "bogus" none 0 0 0 0 c10wit =
      Except.error PyErr.valueErr) ∧
    (set_sound (fun _ => false) true "__pygameMenu_sound_error__" none 0 0 0 0 c10wit =
      Except.ok c10witReset) ∧
    (set_sound (fun _ => false) true "__pygameMenu_sound_error__"
      (some "missing.ogg") 0 0 0 0 c10wit = Except.error PyErr.fileNotFoundErr) :=
  ⟨(c10_amended (fun _ => false) true "bogus" none 0 0 0 0 c10wit le_rfl le_rfl
      le_rfl ⟨le_rfl, by norm_num⟩).1.mpr (by decide),
   ((c10_amended (fun _ => false) true "__pygameMenu_sound_error__" none 0 0 0 0
      c10wit le_rfl le_rfl le_rfl ⟨le_rfl, by norm_num⟩).2.1 (by decide) rfl).1,
   (c10_amended (fun _ => false) true "__pygameMenu_sound_error__"
      (some "missing.ogg") 0 0 0 0 c10wit le_rfl le_rfl le_rfl
      ⟨le_rfl, by norm_num⟩).2.2 "missing.ogg" (by decide) rfl rfl⟩

end Sound

namespace TextInput

/-! ### Claim C6: the backspace and delete branches of update -/

theorem doBackspace_spec (st : TextInput) :
    (doBackspace st).input_string =
      pyTakeI st.input_string (max (st.cursor_position - 1) 0) ++
      pyDropI st.input_string st.cursor_position ∧
    (doBackspace st).cursor_position =
      max (st.cursor_position - 1) 0 := by
  unfold doBackspace update_input_string
  obtain hf := uisF_frame 2 st
    (pyTakeI st.input_string (max (st.cursor_position - 1) 0) ++
     pyDropI st.input_string st.cursor_position)
  obtain hrf := update_renderbox_frame (-1) 0 true false false
    (update_input_stringF 2 st
      (pyTakeI st.input_string (max (st.cursor_position - 1) 0) ++
       pyDropI st.input_string st.cursor_position))
  constructor
  · show (update_renderbox (-1) 0 true false false
      (update_input_stringF 2 st _)).input_string = _
    rw [hrf.1, hf.1]
  · show max ((update_renderbox (-1) 0 true false false
      (update_input_stringF 2 st _)).cursor_position - 1) 0 = _
    rw [hrf.2.1, hf.2.1]

theorem doDelete_spec (st : TextInput) :
    (doDelete st).input_string =
      pyTakeI st.input_string st.cursor_position ++
      pyDropI st.input_string (st.cursor_position + 1) ∧
    (doDelete st).cursor_position = st.cursor_position := by
  unfold doDelete update_input_string
  obtain hf := uisF_frame 2 st
    (pyTakeI st.input_string st.cursor_position ++
     pyDropI st.input_string (st.cursor_position + 1))
  obtain hrf := update_renderbox_frame 0 (-1) true false false
    (update_input_stringF 2 st
      (pyTakeI st.input_string st.cursor_position ++
       pyDropI st.input_string (st.cursor_position + 1)))
  exact ⟨by rw [hrf.1, hf.1], by rw [hrf.2.1, hf.2.1]⟩

/-- Claim C6: with the cursor at p inside the string s, a valid
non-control K_BACKSPACE event turns s into s[:max(p-1,0)] + s[p:] and
moves the cursor to max(p-1,0), playing the error sound exactly when
p == 0 and the deletion sound otherwise; a K_DELETE event turns s into
s[:p] + s[p+1:] and leaves the cursor at p, playing the error sound
exactly when p == len(s); in both cases update returns True. -/
theorem c6_backspace_delete (st : TextInput) (clip : List Char)
    (h0 : 0 ≤ st.cursor_position)
    (h1 : st.cursor_position ≤ (st.input_string.length : Int)) :
    (∃ st1, update clip [PEvent.keydown Key.backspace [] false true false] st =
        some (st1, true,
          [if st.cursor_position = 0 then Snd.eventError else Snd.keyDel]) ∧
      st1.input_string =
        st.input_string.take (st.cursor_position.toNat - 1) ++
        st.input_string.drop st.cursor_position.toNat ∧
      st1.cursor_position = max (st.cursor_position - 1) 0) ∧
    (∃ st2, update clip [PEvent.keydown Key.delete [] false true false] st =
        some (st2, true,
          [if st.cursor_position = (st.input_string.length : Int)
           then Snd.eventError else Snd.keyDel]) ∧
      st2.input_string =
        st.input_string.take st.cursor_position.toNat ++
        st.input_string.drop (st.cursor_position.toNat + 1) ∧
      st2.cursor_position = st.cursor_position) := by
  constructor
  · refine ⟨doBackspace st, ?_, ?_, (doBackspace_spec st).2⟩
    · rfl
    · rw [(doBackspace_spec st).1]
      unfold pyTakeI pyDropI
      rw [normIdx_of_mem st.cursor_position st.input_string.length h0 h1]
      rw [normIdx_of_mem (max (st.cursor_position - 1) 0) st.input_string.length
        (by omega) (by omega)]
      congr 1
      congr 1
      omega
  · refine ⟨doDelete st, ?_, ?_, (doDelete_spec st).2⟩
    · rfl
    · rw [(doDelete_spec st).1]
      unfold pyTakeI pyDropI
      rw [normIdx_of_mem st.cursor_position st.input_string.length h0 h1]
      congr 1
      by_cases hend : st.cursor_position = (st.input_string.length : Int)
      · have hn : normIdx (st.cursor_position + 1) st.input_string.length =
            st.input_string.length := by
          unfold normIdx
          split_ifs <;> omega
        rw [List.drop_eq_nil_of_le (by omega), List.drop_eq_nil_of_le (by omega)]
      · rw [normIdx_of_mem (st.cursor_position + 1) st.input_string.length
          (by omega) (by omega)]
        congr 1
        omega

/-- A widget holding "ab" with the cursor after the first character. -/
def c6wit : TextInput :=
  { sampleTI with input_string := ['a', 'b'], cursor_position := 1 }

/-- The C6 theorem applied at a concrete two-character state. -/
theorem c6_backspace_delete_witness :
    (∃ st1, update [] [PEvent.keydown Key.backspace [] false true false] c6wit =
        some (st1, true,
          [if c6wit.cursor_position = 0 then Snd.eventError else Snd.keyDel]) ∧
      st1.input_string =
        c6wit.input_string.take (c6wit.cursor_position.toNat - 1) ++
        c6wit.input_string.drop c6wit.cursor_position.toNat ∧
      st1.cursor_position = max (c6wit.cursor_position - 1) 0) ∧
    (∃ st2, update [] [PEvent.keydown Key.delete [] false true false] c6wit =
        some (st2, true,
          [if c6wit.cursor_position = (c6wit.input_string.length : Int)
           then Snd.eventError else Snd.keyDel]) ∧
      st2.input_string =
        c6wit.input_string.take c6wit.cursor_position.toNat ++
        c6wit.input_string.drop (c6wit.cursor_position.toNat + 1) ∧
      st2.cursor_position = c6wit.cursor_position) :=
  c6_backspace_delete c6wit [] (by decide) (by decide)

end TextInput

namespace TextInput

/-! ### Claim C7: the cursor invariant -/

/-- The cursor invariant of claim C7. -/
def cursorInv (st : TextInput) : Prop :=
  0 ≤ st.cursor_position ∧ st.cursor_position ≤ (st.input_string.length : Int)

instance (st : TextInput) : Decidable (cursorInv st) := by
  unfold cursorInv
  exact inferInstance

/-- Every stored history entry keeps its stored cursor inside its stored
string (with the history and cursor lists in step).  The code does not
maintain this: backspace stores the pre-deletion cursor with the
post-deletion string. -/
def histEntriesOK (st : TextInput) : Prop :=
  st.history.length = st.history_cursor.length ∧
  ∀ p ∈ st.history.zip st.history_cursor, 0 ≤ p.2 ∧ p.2 ≤ (p.1.length : Int)

instance (st : TextInput) : Decidable (histEntriesOK st) := by
  unfold histEntriesOK
  exact inferInstance

theorem histEntriesOK_get (st : TextInput) (i : Int) (s : List Char) (c : Int)
    (hok : histEntriesOK st)
    (hs : pyGet st.history i = some s) (hc : pyGet st.history_cursor i = some c) :
    0 ≤ c ∧ c ≤ (s.length : Int) := by
  obtain ⟨hlen, hall⟩ := hok
  have hj : ∃ j : Nat, st.history.get? j = some s ∧ st.history_cursor.get? j = some c := by
    rcases le_or_lt 0 i with h1 | h1
    · rw [pyGet_of_nonneg _ _ h1] at hs hc
      exact ⟨i.toNat, hs, hc⟩
    · unfold pyGet at hs hc
      rw [if_neg (by omega)] at hs hc
      rw [hlen] at hs
      split_ifs at hs hc with h2
      exact ⟨_, hs, hc⟩
  obtain ⟨j, hjs, hjc⟩ := hj
  have hzip : (st.history.zip st.history_cursor).get? j = some (s, c) :=
    (List.get?_zip_eq_some _ _ _ _).mpr ⟨hjs, hjc⟩
  exact hall (s, c) (List.get?_mem hzip)

theorem cursorInv_clear (st : TextInput) : cursorInv (clear st) := by
  unfold clear cursorInv
  simp

theorem cursorInv_set_value (st : TextInput) (t : List Char)
    (h : cursorInv st) (hle : st.cursor_position ≤ (t.length : Int)) :
    cursorInv (set_value t st) := by
  unfold set_value cursorInv
  exact ⟨h.1, hle⟩

theorem cursorInv_uis_transfer (st : TextInput) (ns : List Char)
    (hi : st.input_string = ns) (h : cursorInv st) :
    cursorInv (update_input_string st ns) := by
  obtain hf := uisF_frame 2 st ns
  unfold update_input_string cursorInv
  rw [hf.1, hf.2.1, ← hi]
  exact h

theorem cursorInv_cut (st : TextInput) : cursorInv (cut st) := by
  unfold cut update_input_string
  obtain hf := uisF_frame 2 { (copyOp st).1 with cursor_position := 0, rb0 := 0, rb1 := 0, rb2 := 0 } ([] : List Char)
  unfold cursorInv
  rw [hf.1, hf.2.1]
  simp

theorem cursorInv_move_cursor_right (st : TextInput) (h : cursorInv st) :
    cursorInv (move_cursor_right st) := by
  unfold move_cursor_right
  obtain hf := update_renderbox_frame 0 1 false false false
    { st with cursor_position := min (st.cursor_position + 1) (st.input_string.length : Int) }
  unfold cursorInv at h ⊢
  rw [hf.1, hf.2.1]
  dsimp only
  omega

theorem cursorInv_move_cursor_left (st : TextInput) (h : cursorInv st) :
    cursorInv (move_cursor_left st) := by
  unfold move_cursor_left
  obtain hf := update_renderbox_frame (-1) 0 false false false
    { st with cursor_position := max (st.cursor_position - 1) 0 }
  unfold cursorInv at h ⊢
  rw [hf.1, hf.2.1]
  dsimp only
  omega

theorem cursorInv_doHome (st : TextInput) : cursorInv (doHome st) := by
  unfold doHome
  obtain hf := update_renderbox_frame 0 0 false false true
    { st with cursor_position := 0 }
  unfold cursorInv
  rw [hf.1, hf.2.1]
  dsimp only
  omega

theorem cursorInv_doEnd (st : TextInput) : cursorInv (doEnd st) := by
  unfold doEnd
  obtain hf := update_renderbox_frame 0 0 false true false
    { st with cursor_position := (st.input_string.length : Int) }
  unfold cursorInv
  rw [hf.1, hf.2.1]
  dsimp only
  omega

theorem cursorInv_doBackspace (st : TextInput) (h : cursorInv st) :
    cursorInv (doBackspace st) := by
  obtain ⟨hs, hc⟩ := doBackspace_spec st
  unfold cursorInv at h ⊢
  rw [hs, hc]
  simp only [List.length_append, pyTakeI_length, pyDropI_length]
  have h1 := normIdx_of_mem st.cursor_position st.input_string.length h.1 h.2
  have h2 := normIdx_of_mem (max (st.cursor_position - 1) 0) st.input_string.length
    (by omega) (by omega)
  omega

theorem cursorInv_doDelete (st : TextInput) (h : cursorInv st) :
    cursorInv (doDelete st) := by
  obtain ⟨hs, hc⟩ := doDelete_spec st
  unfold cursorInv at h ⊢
  rw [hs, hc]
  simp only [List.length_append, pyTakeI_length, pyDropI_length]
  have h1 := normIdx_of_mem st.cursor_position st.input_string.length h.1 h.2
  have h2 := normIdx_le (st.cursor_position + 1) st.input_string.length
  omega

theorem doAddChar_spec (u : List Char) (st : TextInput) :
    (doAddChar u st).input_string =
      pyTakeI st.input_string st.cursor_position ++ u ++
      pyDropI st.input_string st.cursor_position ∧
    (doAddChar u st).cursor_position = st.cursor_position + 1 := by
  unfold doAddChar update_input_string
  obtain hf := uisF_frame 2 (update_renderbox 0 1 true false false
    { st with cursor_position := st.cursor_position + 1,
              input_string := pyTakeI st.input_string st.cursor_position ++ u ++
                              pyDropI st.input_string st.cursor_position })
    (pyTakeI st.input_string st.cursor_position ++ u ++
     pyDropI st.input_string st.cursor_position)
  obtain hrf := update_renderbox_frame 0 1 true false false
    { st with cursor_position := st.cursor_position + 1,
              input_string := pyTakeI st.input_string st.cursor_position ++ u ++
                              pyDropI st.input_string st.cursor_position }
  exact ⟨hf.1, by rw [hf.2.1, hrf.2.1]⟩

theorem cursorInv_doAddChar (u : List Char) (st : TextInput)
    (hu : 0 < u.length) (h : cursorInv st) : cursorInv (doAddChar u st) := by
  obtain ⟨hs, hc⟩ := doAddChar_spec u st
  unfold cursorInv at h ⊢
  rw [hs, hc]
  simp only [List.length_append, pyTakeI_length, pyDropI_length]
  have h1 := normIdx_le st.cursor_position st.input_string.length
  omega

theorem iterMoveRight_input (n : Nat) (st : TextInput) :
    (iterMoveRight n st).input_string = st.input_string := by
  induction n generalizing st with
  | zero => rfl
  | succ m ih =>
    unfold iterMoveRight
    rw [ih]
    unfold move_cursor_right
    exact (update_renderbox_frame 0 1 false false false _).1

theorem cursorInv_iterMoveRight (n : Nat) (st : TextInput) (h : cursorInv st) :
    cursorInv (iterMoveRight n st) := by
  induction n generalizing st with
  | zero => exact h
  | succ m ih =>
    unfold iterMoveRight
    exact ih _ (cursorInv_move_cursor_right st h)

theorem cursorInv_paste (st : TextInput) (clip : List Char) (h : cursorInv st) :
    cursorInv (paste clip st).1 := by
  have hstep : ∀ (ns : List Char) (k : Nat),
      st.cursor_position ≤ (ns.length : Int) →
      cursorInv { update_input_string (iterMoveRight k { st with input_string := ns }) ns with block_copy_paste := true } := by
    intro ns k hle
    have h1 : cursorInv { st with input_string := ns } := ⟨h.1, hle⟩
    have h2 := cursorInv_iterMoveRight k _ h1
    have h3 : cursorInv (update_input_string (iterMoveRight k { st with input_string := ns }) ns) := by
      apply cursorInv_uis_transfer
      · rw [iterMoveRight_input]
      · exact h2
    exact h3
  unfold paste
  simp only [ne_eq]
  split_ifs with h1 h2 h3 h4 h5 <;>
    first
      | exact h
      | (apply hstep
         simp only [List.length_append, pyTakeI_length, pyDropI_length]
         have hni := normIdx_le st.cursor_position st.input_string.length
         have hc0 := h.1
         have hcl := h.2
         omega)

end TextInput

namespace TextInput

theorem update_from_history_cursorInv (st st2 : TextInput)
    (hok : histEntriesOK st) (h : update_from_history st = some st2) :
    cursorInv st2 := by
  unfold update_from_history at h
  cases hs : pyGet st.history st.history_index with
  | none =>
    rw [hs] at h
    exact Option.noConfusion h
  | some s =>
    cases hrb : pyGet st.history_renderbox st.history_index with
    | none =>
      rw [hs, hrb] at h
      exact Option.noConfusion h
    | some rb =>
      cases hcc : pyGet st.history_cursor st.history_index with
      | none =>
        rw [hs, hrb, hcc] at h
        exact Option.noConfusion h
      | some c =>
        rw [hs, hrb, hcc] at h
        have h' := Option.some.inj h
        have hbound := histEntriesOK_get st st.history_index s c hok hs hcc
        rw [← h']
        exact ⟨hbound.1, hbound.2⟩

theorem cursorInv_undo (st : TextInput) (r : TextInput × Bool)
    (hok : histEntriesOK st) (hinv : cursorInv st) (h : undo st = some r) :
    cursorInv r.1 := by
  unfold undo at h
  split_ifs at h with h0 h1
  · have h' := Option.some.inj h
    rw [← h']
    exact hinv
  all_goals
    dsimp only at h
    rw [Option.map_eq_some'] at h
    obtain ⟨st2, hu, hr⟩ := h
    rw [← hr]
    exact update_from_history_cursorInv _ st2 (by exact hok) hu

theorem cursorInv_redo (st : TextInput) (r : TextInput × Bool)
    (hok : histEntriesOK st) (hinv : cursorInv st) (h : redo st = some r) :
    cursorInv r.1 := by
  unfold redo at h
  split_ifs at h with h0
  · have h' := Option.some.inj h
    rw [← h']
    exact hinv
  · dsimp only at h
    rw [Option.map_eq_some'] at h
    obtain ⟨st2, hu, hr⟩ := h
    rw [← hr]
    exact update_from_history_cursorInv _ st2 (by exact hok) hu

/-- Events whose processing never goes through undo/redo: every event
except Ctrl+Z and Ctrl+Y. -/
def evAllowed : PEvent → Bool
  | PEvent.keydown (Key.char c) _ ctrl _ _ => !(ctrl && (c == 'z' || c == 'y'))
  | _ => true

theorem updateLoop_cursorInv (clip : List Char) (evs : List PEvent) :
    ∀ (st : TextInput) (u0 : Bool) (s0 : List Snd)
      (out : TextInput × Bool × List Snd),
      (∀ ev ∈ evs, evAllowed ev = true) → cursorInv st →
      updateLoop clip evs st u0 s0 = some out → cursorInv out.1 := by
  induction evs with
  | nil =>
    intro st u0 s0 out _ hinv h
    unfold updateLoop at h
    have h' := Option.some.inj h
    rw [← h']
    exact hinv
  | cons ev rest ih =>
    intro st u0 s0 out hall hinv h
    have hallr : ∀ e ∈ rest, evAllowed e = true :=
      fun e he => hall e (List.mem_cons_of_mem _ he)
    have hthis := hall ev (List.mem_cons_self _ _)
    cases ev with
    | keyup =>
      unfold updateLoop at h
      exact ih _ u0 s0 out hallr (by exact hinv) h
    | keydown k u ctrl valid escBad =>
      unfold updateLoop at h
      by_cases hv : valid = false
      · rw [if_pos hv] at h
        exact ih st u0 s0 out hallr hinv h
      · rw [if_neg hv] at h
        by_cases hctrl : ctrl = true
        · rw [if_pos hctrl] at h
          by_cases hkc : k = Key.char 'c'
          · rw [if_pos hkc] at h
            dsimp only at h
            have h' := Option.some.inj h
            rw [← h']
            show cursorInv (copyOp st).1
            unfold copyOp
            split_ifs <;> exact hinv
          · rw [if_neg hkc] at h
            by_cases hkv : k = Key.char 'v'
            · rw [if_pos hkv] at h
              dsimp only at h
              have h' := Option.some.inj h
              rw [← h']
              exact cursorInv_paste st clip hinv
            · rw [if_neg hkv] at h
              by_cases hkz : k = Key.char 'z'
              · exfalso
                subst hkz
                rw [hctrl] at hthis
                simp [evAllowed] at hthis
              · rw [if_neg hkz] at h
                by_cases hky : k = Key.char 'y'
                · exfalso
                  subst hky
                  rw [hctrl] at hthis
                  simp [evAllowed] at hthis
                · rw [if_neg hky] at h
                  by_cases hkx : k = Key.char 'x'
                  · rw [if_pos hkx] at h
                    have h' := Option.some.inj h
                    rw [← h']
                    exact cursorInv_cut st
                  · rw [if_neg hkx] at h
                    have h' := Option.some.inj h
                    rw [← h']
                    exact hinv
        · rw [if_neg hctrl] at h
          cases k with
          | backspace => exact ih _ true _ out hallr (cursorInv_doBackspace st hinv) h
          | delete => exact ih _ true _ out hallr (cursorInv_doDelete st hinv) h
          | right => exact ih _ true _ out hallr (cursorInv_move_cursor_right st hinv) h
          | left => exact ih _ true _ out hallr (cursorInv_move_cursor_left st hinv) h
          | endKey => exact ih _ true _ out hallr (cursorInv_doEnd st) h
          | home => exact ih _ true _ out hallr (cursorInv_doHome st) h
          | enter => exact ih st true _ out hallr hinv h
          | ignored => exact ih st u0 s0 out hallr hinv h
          | char c =>
            dsimp only at h
            split_ifs at h with hsz hesc hty hlen
            · have h' := Option.some.inj h
              rw [← h']
              exact hinv
            · have h' := Option.some.inj h
              rw [← h']
              exact hinv
            · exact ih _ true _ out hallr (cursorInv_doAddChar u st hlen hinv) h
            · exact ih st u0 s0 out hallr hinv h
            · exact ih st u0 _ out hallr hinv h

end TextInput

namespace TextInput

/-- A one-character widget with the cursor after it. -/
def c7setSt : TextInput :=
  { sampleTI with input_string := ['a'], cursor_position := 1 }

/-- The widget reached from an empty TextInput by typing "a", pressing
backspace and pressing Ctrl+Z (undo): the history holds the editions "a"
and "" with the backspace edition's cursor stored before the deletion. -/
def c7redoSt : TextInput :=
  { sampleTI with input_string := ['a'], cursor_position := 1,
                  history := [['a'], []], history_cursor := [1, 1],
                  history_renderbox := [(0, 0, 0), (0, 0, 0)],
                  history_index := 0 }

/-- The state _redo produces from c7redoSt: the empty edition together
with its stored cursor 1, which lies outside the empty string. -/
def c7redoPost : TextInput :=
  { c7redoSt with input_string := [], cursor_position := 1, history_index := 1 }

/-- Claim C7 is false: set_value does not touch the cursor, so shrinking
the text leaves 0 <= cursor <= len violated; and _redo restores a history
entry whose stored cursor (recorded by backspace before the deletion)
exceeds the restored string's length. -/
theorem c7_counterexample :
    (cursorInv c7setSt ∧ ¬cursorInv (set_value [] c7setSt)) ∧
    (cursorInv c7redoSt ∧ redo c7redoSt = some (c7redoPost, true) ∧
     ¬cursorInv c7redoPost) := by
  decide

/-- Amended claim C7: clear, _cut, _paste and update over keyboard events
other than Ctrl+Z/Ctrl+Y preserve 0 <= _cursor_position <=
len(_input_string) (the mouse path is excluded: it depends on host font
geometry); set_value preserves it only when the new text is at least as
long as the cursor position; and _undo/_redo preserve it only when every
stored history entry keeps its stored cursor within its stored string,
which the code does not guarantee (backspace stores the pre-deletion
cursor with the post-deletion string). -/
theorem c7_amended :
    (∀ st : TextInput, cursorInv (clear st)) ∧
    (∀ st : TextInput, cursorInv (cut st)) ∧
    (∀ (st : TextInput) (t : List Char), cursorInv st →
      st.cursor_position ≤ (t.length : Int) → cursorInv (set_value t st)) ∧
    (∀ (st : TextInput) (clip : List Char), cursorInv st →
      cursorInv (paste clip st).1) ∧
    (∀ (st : TextInput) (r : TextInput × Bool), histEntriesOK st →
      cursorInv st → undo st = some r → cursorInv r.1) ∧
    (∀ (st : TextInput) (r : TextInput × Bool), histEntriesOK st →
      cursorInv st → redo st = some r → cursorInv r.1) ∧
    (∀ (clip : List Char) (evs : List PEvent) (st : TextInput)
      (out : TextInput × Bool × List Snd),
      (∀ ev ∈ evs, evAllowed ev = true) → cursorInv st →
      update clip evs st = some out → cursorInv out.1) := by
  refine ⟨cursorInv_clear, cursorInv_cut, ?_, ?_, ?_, ?_, ?_⟩
  · intro st t h hle
    exact cursorInv_set_value st t h hle
  · intro st clip h
    exact cursorInv_paste st clip h
  · intro st r hok h hu
    exact cursorInv_undo st r hok h hu
  · intro st r hok h hu
    exact cursorInv_redo st r hok h hu
  · intro clip evs st out hall h hu
    exact updateLoop_cursorInv clip evs st false [] out hall h hu

/-- The amended C7 theorem applied at concrete states: a backspace event
on "ab" and an undo on a consistent history. -/
theorem c7_amended_witness :
    cursorInv (doBackspace c6wit) ∧ cursorInv (paste ['x'] c7setSt).1 :=
  ⟨c7_amended.2.2.2.2.2.2 [] [PEvent.keydown Key.backspace [] false true false] c6wit
     (doBackspace c6wit, true, [Snd.keyDel]) (by decide) (by decide) (by decide),
   c7_amended.2.2.2.1 c7setSt ['x'] (by decide)⟩

end TextInput
